import Mathlib

/-!
Shallow embedding of the EmiAnalyzer financial computation engine
(`myapp/views.py`): date/month arithmetic, amortization math, the
credit-card snapshot accumulator, the financial snapshot aggregator and
the risk classifier, together with theorems settling the frozen claims.

Python floats are modelled as exact rationals (ℚ), Python ints as ℤ.
`round(x, 2)` / `round(x)` use Python's round-half-to-even, modelled
exactly by `roundHalfEven` below.
-/

namespace EmiAnalyzer

/-- Python `round(q)`: round half to even, as an integer. -/
def roundHalfEven (q : ℚ) : ℤ :=
  if q - (⌊q⌋ : ℚ) < 1/2 then ⌊q⌋
  else if 1/2 < q - (⌊q⌋ : ℚ) then ⌊q⌋ + 1
  else if 2 ∣ ⌊q⌋ then ⌊q⌋ else ⌊q⌋ + 1

/-- Python `round(q, 2)`: round half to even at two decimal places. -/
def round2 (q : ℚ) : ℚ := (roundHalfEven (q * 100) : ℚ) / 100

theorem roundHalfEven_le_ceil (q : ℚ) : roundHalfEven q ≤ ⌊q⌋ + 1 := by
  unfold roundHalfEven
  split_ifs <;> omega

theorem floor_le_roundHalfEven (q : ℚ) : ⌊q⌋ ≤ roundHalfEven q := by
  unfold roundHalfEven
  split_ifs <;> omega

theorem roundHalfEven_mono {x y : ℚ} (h : x ≤ y) :
    roundHalfEven x ≤ roundHalfEven y := by
  rcases lt_or_eq_of_le (Int.floor_le_floor h) with hf | hf
  · calc roundHalfEven x ≤ ⌊x⌋ + 1 := roundHalfEven_le_ceil x
      _ ≤ ⌊y⌋ := by omega
      _ ≤ roundHalfEven y := floor_le_roundHalfEven y
  · have hfq : ((⌊x⌋ : ℚ)) = ((⌊y⌋ : ℚ)) := by exact_mod_cast hf
    have hr : x - (⌊x⌋ : ℚ) ≤ y - (⌊y⌋ : ℚ) := by rw [← hfq]; linarith
    unfold roundHalfEven
    split_ifs <;> first | omega | linarith

theorem roundHalfEven_nonneg {q : ℚ} (h : 0 ≤ q) : 0 ≤ roundHalfEven q := by
  have := floor_le_roundHalfEven q
  have : (0 : ℤ) ≤ ⌊q⌋ := by positivity
  omega

theorem round2_mono {x y : ℚ} (h : x ≤ y) : round2 x ≤ round2 y := by
  unfold round2
  have := roundHalfEven_mono (mul_le_mul_of_nonneg_right h (by norm_num : (0:ℚ) ≤ 100))
  have hcast : ((roundHalfEven (x * 100) : ℚ)) ≤ ((roundHalfEven (y * 100) : ℚ)) := by
    exact_mod_cast this
  linarith

theorem round2_nonneg {q : ℚ} (h : 0 ≤ q) : 0 ≤ round2 q := by
  unfold round2
  have := roundHalfEven_nonneg (q := q * 100) (by positivity)
  have hcast : (0 : ℚ) ≤ (roundHalfEven (q * 100) : ℚ) := by exact_mod_cast this
  linarith

/-! ## Dates (`datetime.date`) -/

/-- A Python `datetime.date` value (validity is a separate predicate). -/
@[ext] structure PyDate where
  year : ℤ
  month : ℤ
  day : ℤ
deriving DecidableEq, Repr

/-- Python date ordering: lexicographic on (year, month, day). -/
def PyDate.lt (a b : PyDate) : Prop :=
  a.year < b.year ∨ (a.year = b.year ∧
    (a.month < b.month ∨ (a.month = b.month ∧ a.day < b.day)))

instance : LT PyDate := ⟨PyDate.lt⟩

instance : LE PyDate := ⟨fun a b => PyDate.lt a b ∨ a = b⟩

instance (a b : PyDate) : Decidable (PyDate.lt a b) :=
  inferInstanceAs (Decidable (a.year < b.year ∨ (a.year = b.year ∧
    (a.month < b.month ∨ (a.month = b.month ∧ a.day < b.day)))))

instance (a b : PyDate) : Decidable (a < b) :=
  inferInstanceAs (Decidable (PyDate.lt a b))

instance (a b : PyDate) : Decidable (a ≤ b) :=
  inferInstanceAs (Decidable (PyDate.lt a b ∨ a = b))

theorem PyDate.lt_def {a b : PyDate} : a < b ↔
    (a.year < b.year ∨ (a.year = b.year ∧
      (a.month < b.month ∨ (a.month = b.month ∧ a.day < b.day)))) := Iff.rfl

theorem PyDate.le_def {a b : PyDate} : a ≤ b ↔ (PyDate.lt a b ∨ a = b) := Iff.rfl

theorem PyDate.not_lt {a b : PyDate} : ¬ a < b ↔ b ≤ a := by
  simp only [PyDate.lt_def, PyDate.le_def, PyDate.lt, PyDate.ext_iff]
  constructor
  · intro h
    omega
  · intro h
    omega

/-- `calendar.isleap`. -/
def isLeap (y : ℤ) : Prop := (y % 4 = 0 ∧ y % 100 ≠ 0) ∨ y % 400 = 0

instance (y : ℤ) : Decidable (isLeap y) :=
  inferInstanceAs (Decidable ((y % 4 = 0 ∧ y % 100 ≠ 0) ∨ y % 400 = 0))

/-- `calendar.monthrange(y, m)[1]`: number of days in a month. -/
def daysInMonth (y m : ℤ) : ℤ :=
  if m = 2 then (if isLeap y then 29 else 28)
  else if m = 4 ∨ m = 6 ∨ m = 9 ∨ m = 11 then 30
  else 31

/-- `_loan_period_months(start, end)`. -/
def loanPeriodMonths (s e : PyDate) : ℤ :=
  let months := (e.year - s.year) * 12 + (e.month - s.month)
  let months := if s.day ≤ e.day then months + 1 else months
  max 1 months

/-- `_shift_date_by_months(base, months)` (Python floor division/modulo,
which for the positive divisor 12 coincides with `ℤ`'s `/` and `%`). -/
def shiftDateByMonths (base : PyDate) (months : ℤ) : PyDate :=
  let idx := (base.month - 1) + months
  let ty := base.year + idx / 12
  let tm := idx % 12 + 1
  { year := ty, month := tm, day := min base.day (daysInMonth ty tm) }

/-- `_month_start_value(value)`: replace the day by 1. -/
def monthStartValue (d : PyDate) : PyDate := { d with day := 1 }

/-- `_month_gap(start_month, end_month)`. -/
def monthGap (s e : PyDate) : ℤ :=
  (e.year - s.year) * 12 + (e.month - s.month)

/-! ## Amortization math -/

/-- `_emi_from_rate(principal, monthly_rate, tenure_months)`:
`None` is modelled as `Option.none`. -/
def emiFromRate (principal rate : ℚ) (tenure : ℤ) : Option ℚ :=
  if tenure ≤ 0 then none
  else if rate ≤ 0 then some (principal / (tenure : ℚ))
  else
    let factor := (1 + rate) ^ tenure.toNat
    let denom := factor - 1
    if denom ≤ 0 then none
    else some (principal * rate * factor / denom)

/-- `_calculate_monthly_emi(principal, monthly_rate, tenure_months)`. -/
def calculateMonthlyEmi (principal rate : ℚ) (tenure : ℤ) : Option ℤ :=
  (emiFromRate principal rate tenure).map (fun e => max 1 (roundHalfEven e))

/-- One bisection iteration of `_infer_monthly_rate`'s loop. -/
def inferStep (principal emi : ℚ) (tenure : ℤ) (s : ℚ × ℚ) : Option (ℚ × ℚ) :=
  let mid := (s.1 + s.2) / 2
  match emiFromRate principal mid tenure with
  | none => none
  | some cand => if emi < cand then some (s.1, mid) else some (mid, s.2)

/-- The 120-iteration bisection loop of `_infer_monthly_rate`. -/
def inferLoop (principal emi : ℚ) (tenure : ℤ) : ℕ → ℚ × ℚ → Option (ℚ × ℚ)
  | 0, s => some s
  | k+1, s =>
      match inferStep principal emi tenure s with
      | none => none
      | some s' => inferLoop principal emi tenure k s'

/-- `_infer_monthly_rate(principal, monthly_emi, tenure_months)`. -/
def inferMonthlyRate (principal emi : ℚ) (tenure : ℤ) : Option ℚ :=
  if principal ≤ 0 ∨ emi ≤ 0 ∨ tenure ≤ 0 then none
  else
    let minimum := principal / (tenure : ℚ)
    if emi < minimum then none
    else if |emi - minimum| < 1/100000000 then some 0
    else
      match inferLoop principal emi tenure 120 (0, 1) with
      | none => none
      | some s => some ((s.1 + s.2) / 2)

/-! ## Loans -/

/-- A `Loan` record (`myapp/models.py`). -/
structure Loan where
  principal : ℤ
  monthly_emi : ℤ
  interest_rate : ℚ
  start_date : PyDate
  end_date : PyDate
deriving DecidableEq, Repr

/-- One amortization step of `_loan_remaining_balance_at_month`'s loop:
add a month of interest (when the rate is positive), subtract the EMI. -/
def loanBalanceStep (rate emi b : ℚ) : ℚ :=
  (if 0 < rate then b + b * rate else b) - emi

/-- The simulation loop of `_loan_remaining_balance_at_month`, with the
early `return 0.0` the moment the balance goes non-positive. -/
def loanBalanceIter (rate emi : ℚ) : ℕ → ℚ → ℚ
  | 0, b => b
  | k+1, b =>
      let b' := loanBalanceStep rate emi b
      if b' ≤ 0 then 0 else loanBalanceIter rate emi k b'

/-- `_loan_remaining_balance_at_month(loan, month_start)`. -/
def loanRemainingBalanceAtMonth (loan : Loan) (month_start : PyDate) : ℚ :=
  if ((max 0 loan.principal : ℤ) : ℚ) ≤ 0 then 0
  else if month_start < monthStartValue loan.start_date then 0
  else if monthStartValue loan.end_date < month_start then 0
  else if loanPeriodMonths loan.start_date loan.end_date
      ≤ max 0 (monthGap (monthStartValue loan.start_date) month_start) then 0
  else
    round2 (max 0 (loanBalanceIter (max 0 loan.interest_rate / 1200)
      ((max 0 loan.monthly_emi : ℤ) : ℚ)
      (max 0 (monthGap (monthStartValue loan.start_date) month_start)).toNat
      ((max 0 loan.principal : ℤ) : ℚ)))

/-- Loan status relative to a reference date (`_loan_runtime_breakdown`). -/
inductive LoanStatus where
  | upcoming
  | closed
  | active
deriving DecidableEq, Repr

/-- The classification branch of `_loan_runtime_breakdown`. -/
def loanStatus (reference_date : PyDate) (loan : Loan) : LoanStatus :=
  if reference_date < loan.start_date then .upcoming
  else if loan.end_date < reference_date then .closed
  else .active

/-! ## Credit cards -/

/-- A `CreditCardAccount` record (fields used by the snapshot). -/
structure Card where
  id : ℤ
  credit_limit : ℤ
  emi_interest_rate : ℚ
  reward_percent : ℚ
deriving DecidableEq, Repr

/-- `CreditCardEntry.entry_type`. -/
inductive EntryType where
  | emi
  | monthlySpend
deriving DecidableEq, Repr

/-- A `CreditCardEntry` record (with its card denormalized onto it). -/
structure CCEntry where
  card : Card
  entry_type : EntryType
  entry_month : PyDate
  amount : ℤ
  tenure_months : ℤ
deriving DecidableEq, Repr

/-- `_card_emi_monthly_due(principal, annual_rate_percent, tenure_months)`. -/
def cardEmiMonthlyDue (principal annualRate : ℚ) (tenureMonths : ℤ) : ℤ :=
  match calculateMonthlyEmi principal (max 0 annualRate / 1200) (max 1 tenureMonths) with
  | none => max 1 (roundHalfEven (principal / ((max 1 tenureMonths : ℤ) : ℚ)))
  | some c => c

/-- `_card_emi_remaining_balance(principal, annual_rate_percent,
tenure_months, months_paid)`. -/
def cardEmiRemainingBalance (principal annualRate : ℚ)
    (tenureMonths monthsPaid : ℤ) : ℚ :=
  let amount := max 0 principal
  let tenure := max 1 tenureMonths
  let paid := max 0 monthsPaid
  if tenure ≤ paid then 0
  else
    let rate := max 0 annualRate / 1200
    if rate ≤ 0 then round2 (max 0 (amount * (((tenure - paid : ℤ) : ℚ) / (tenure : ℚ))))
    else
      let growth_total := (1 + rate) ^ tenure.toNat
      let growth_paid := (1 + rate) ^ paid.toNat
      if growth_total - 1 ≤ 0 then round2 amount
      else round2 (max 0 (amount * ((growth_total - growth_paid) / (growth_total - 1))))

/-- The per-card accumulator row of `_credit_card_snapshot` (the
`card` object itself is keyed externally by `Card.id`). -/
@[ext] structure CardRow where
  emi_monthly_due : ℚ
  emi_remaining_balance : ℚ
  monthly_spend_amount : ℚ
  total_amount : ℚ
  interest_estimate : ℚ
  reward_estimate : ℚ
  entry_count : ℤ
  spend_entry_count : ℤ
  emi_entry_count : ℤ
  closed_emi_entry_count : ℤ
  upcoming_emi_entry_count : ℤ

instance : Zero CardRow := ⟨⟨0, 0, 0, 0, 0, 0, 0, 0, 0, 0, 0⟩⟩

theorem cardRow_zero_def : (0 : CardRow) = ⟨0, 0, 0, 0, 0, 0, 0, 0, 0, 0, 0⟩ := rfl

/-- The portfolio accumulator of `_credit_card_snapshot`'s entry loop. -/
@[ext] structure CCAcc where
  total_emi_monthly_due : ℚ
  total_monthly_spend_amount : ℚ
  total_emi_remaining_balance : ℚ
  total_amount : ℚ
  total_interest_estimate : ℚ
  total_reward_estimate : ℚ
  weighted_rate_numerator : ℚ
  per_card : ℤ → CardRow

instance : Zero CCAcc := ⟨⟨0, 0, 0, 0, 0, 0, 0, fun _ => 0⟩⟩

theorem ccAcc_zero_def : (0 : CCAcc) = ⟨0, 0, 0, 0, 0, 0, 0, fun _ => 0⟩ := rfl

/-- `elapsed_months` for a card entry: `_month_gap(entry_month, reference_month)`. -/
def ccEntryElapsed (refMonth : PyDate) (e : CCEntry) : ℤ :=
  monthGap (monthStartValue e.entry_month) refMonth

/-- The effective tenure of an EMI entry: `max(1, int(entry.tenure_months or 1))`. -/
def ccEntryTenure (e : CCEntry) : ℤ := max 1 e.tenure_months

/-- `monthly_due` of an active EMI entry. -/
def ccEntryMonthlyDue (e : CCEntry) : ℚ :=
  ((cardEmiMonthlyDue (e.amount : ℚ) e.card.emi_interest_rate (ccEntryTenure e) : ℤ) : ℚ)

/-- `remaining_balance` of an active EMI entry. -/
def ccEntryRemaining (refMonth : PyDate) (e : CCEntry) : ℚ :=
  cardEmiRemainingBalance (e.amount : ℚ) e.card.emi_interest_rate
    (ccEntryTenure e) (ccEntryElapsed refMonth e)

/-- `monthly_interest` of an active EMI entry. -/
def ccEntryInterest (refMonth : PyDate) (e : CCEntry) : ℚ :=
  round2 (ccEntryRemaining refMonth e * (e.card.emi_interest_rate / 1200))

/-- `spend_amount = float(max(0, entry.amount))` of a spend entry. -/
def ccEntrySpend (e : CCEntry) : ℚ := ((max 0 e.amount : ℤ) : ℚ)

/-- `reward_estimate` of a current-month spend entry. -/
def ccEntryReward (e : CCEntry) : ℚ :=
  round2 (ccEntrySpend e * (e.card.reward_percent / 100))

/-- One iteration of the entry loop of `_credit_card_snapshot`
(the `card_row['entry_count'] += 1` that precedes the branch is folded
into each branch's per-card update). -/
def processEntry (refMonth : PyDate) (acc : CCAcc) (e : CCEntry) : CCAcc :=
  match e.entry_type with
  | .emi =>
      if ccEntryElapsed refMonth e < 0 then
        { acc with per_card := fun i => if i = e.card.id then
            { acc.per_card i with
              entry_count := (acc.per_card i).entry_count + 1,
              upcoming_emi_entry_count := (acc.per_card i).upcoming_emi_entry_count + 1 }
          else acc.per_card i }
      else if ccEntryTenure e ≤ ccEntryElapsed refMonth e then
        { acc with per_card := fun i => if i = e.card.id then
            { acc.per_card i with
              entry_count := (acc.per_card i).entry_count + 1,
              closed_emi_entry_count := (acc.per_card i).closed_emi_entry_count + 1 }
          else acc.per_card i }
      else
        { acc with
          total_emi_monthly_due := acc.total_emi_monthly_due + ccEntryMonthlyDue e,
          total_emi_remaining_balance :=
            acc.total_emi_remaining_balance + ccEntryRemaining refMonth e,
          total_amount := acc.total_amount + ccEntryRemaining refMonth e,
          total_interest_estimate :=
            acc.total_interest_estimate + ccEntryInterest refMonth e,
          weighted_rate_numerator := acc.weighted_rate_numerator +
            ccEntryRemaining refMonth e * e.card.emi_interest_rate,
          per_card := fun i => if i = e.card.id then
            { acc.per_card i with
              entry_count := (acc.per_card i).entry_count + 1,
              emi_entry_count := (acc.per_card i).emi_entry_count + 1,
              emi_monthly_due := (acc.per_card i).emi_monthly_due + ccEntryMonthlyDue e,
              emi_remaining_balance :=
                (acc.per_card i).emi_remaining_balance + ccEntryRemaining refMonth e,
              total_amount := (acc.per_card i).total_amount + ccEntryRemaining refMonth e,
              interest_estimate :=
                (acc.per_card i).interest_estimate + ccEntryInterest refMonth e }
          else acc.per_card i }
  | .monthlySpend =>
      if monthStartValue e.entry_month ≠ refMonth then
        { acc with per_card := fun i => if i = e.card.id then
            { acc.per_card i with
              entry_count := (acc.per_card i).entry_count + 1 }
          else acc.per_card i }
      else
        { acc with
          total_monthly_spend_amount := acc.total_monthly_spend_amount + ccEntrySpend e,
          total_amount := acc.total_amount + ccEntrySpend e,
          total_reward_estimate := acc.total_reward_estimate + ccEntryReward e,
          per_card := fun i => if i = e.card.id then
            { acc.per_card i with
              entry_count := (acc.per_card i).entry_count + 1,
              spend_entry_count := (acc.per_card i).spend_entry_count + 1,
              monthly_spend_amount :=
                (acc.per_card i).monthly_spend_amount + ccEntrySpend e,
              total_amount := (acc.per_card i).total_amount + ccEntrySpend e,
              reward_estimate := (acc.per_card i).reward_estimate + ccEntryReward e }
          else acc.per_card i }

/-- The entry loop of `_credit_card_snapshot`: fold over the entries,
starting from all-zero accumulators. -/
def ccAccum (entries : List CCEntry) (reference_date : PyDate) : CCAcc :=
  entries.foldl (processEntry (monthStartValue reference_date)) 0

/-- The portfolio-level fields of `_credit_card_snapshot`'s returned dict. -/
@[ext] structure CCTotals where
  total_emi_amount : ℚ
  total_monthly_spend_amount : ℚ
  total_emi_remaining_balance : ℚ
  total_amount : ℚ
  weighted_apr : ℚ
  monthly_interest_estimate : ℚ
  monthly_reward_estimate : ℚ
  monthly_net_cost : ℚ
deriving DecidableEq, Repr

/-- `_credit_card_snapshot(user, reference_date)`, restricted to the
portfolio-level totals. -/
def creditCardSnapshot (entries : List CCEntry) (reference_date : PyDate) : CCTotals :=
  let acc := ccAccum entries reference_date
  { total_emi_amount := round2 acc.total_emi_monthly_due
    total_monthly_spend_amount := round2 acc.total_monthly_spend_amount
    total_emi_remaining_balance := round2 acc.total_emi_remaining_balance
    total_amount := round2 acc.total_amount
    weighted_apr := if 0 < acc.total_amount
      then round2 (acc.weighted_rate_numerator / acc.total_amount) else 0
    monthly_interest_estimate := round2 acc.total_interest_estimate
    monthly_reward_estimate := round2 acc.total_reward_estimate
    monthly_net_cost := round2 (acc.total_interest_estimate - acc.total_reward_estimate) }

/-- The per-entry contribution to the accumulators. -/
def entryContrib (refMonth : PyDate) (e : CCEntry) : CCAcc :=
  processEntry refMonth 0 e

/-- Any projection of the accumulator that the loop body updates by `+=`
distributes over the fold: folding is summing the per-entry contributions. -/
theorem foldl_proj_sum (M : PyDate) (f : CCAcc → ℚ)
    (hf : ∀ acc e, f (processEntry M acc e) = f acc + f (entryContrib M e)) :
    ∀ (l : List CCEntry) (z : CCAcc),
      f (l.foldl (processEntry M) z)
        = f z + (l.map (fun e => f (entryContrib M e))).sum := by
  intro l
  induction l with
  | nil => intro z; simp
  | cons e t ih =>
      intro z
      simp only [List.foldl_cons, List.map_cons, List.sum_cons]
      rw [ih, hf, add_assoc]

theorem processEntry_total_emi_monthly_due (M : PyDate) (acc : CCAcc) (e : CCEntry) :
    (processEntry M acc e).total_emi_monthly_due
      = acc.total_emi_monthly_due + (entryContrib M e).total_emi_monthly_due := by
  unfold entryContrib processEntry
  cases e.entry_type <;> split_ifs <;>
    simp only [ccAcc_zero_def, cardRow_zero_def] <;> ring

theorem processEntry_total_monthly_spend_amount (M : PyDate) (acc : CCAcc) (e : CCEntry) :
    (processEntry M acc e).total_monthly_spend_amount
      = acc.total_monthly_spend_amount + (entryContrib M e).total_monthly_spend_amount := by
  unfold entryContrib processEntry
  cases e.entry_type <;> split_ifs <;>
    simp only [ccAcc_zero_def, cardRow_zero_def] <;> ring

theorem processEntry_total_emi_remaining_balance (M : PyDate) (acc : CCAcc) (e : CCEntry) :
    (processEntry M acc e).total_emi_remaining_balance
      = acc.total_emi_remaining_balance + (entryContrib M e).total_emi_remaining_balance := by
  unfold entryContrib processEntry
  cases e.entry_type <;> split_ifs <;>
    simp only [ccAcc_zero_def, cardRow_zero_def] <;> ring

theorem processEntry_total_amount (M : PyDate) (acc : CCAcc) (e : CCEntry) :
    (processEntry M acc e).total_amount
      = acc.total_amount + (entryContrib M e).total_amount := by
  unfold entryContrib processEntry
  cases e.entry_type <;> split_ifs <;>
    simp only [ccAcc_zero_def, cardRow_zero_def] <;> ring

theorem processEntry_total_interest_estimate (M : PyDate) (acc : CCAcc) (e : CCEntry) :
    (processEntry M acc e).total_interest_estimate
      = acc.total_interest_estimate + (entryContrib M e).total_interest_estimate := by
  unfold entryContrib processEntry
  cases e.entry_type <;> split_ifs <;>
    simp only [ccAcc_zero_def, cardRow_zero_def] <;> ring

theorem processEntry_total_reward_estimate (M : PyDate) (acc : CCAcc) (e : CCEntry) :
    (processEntry M acc e).total_reward_estimate
      = acc.total_reward_estimate + (entryContrib M e).total_reward_estimate := by
  unfold entryContrib processEntry
  cases e.entry_type <;> split_ifs <;>
    simp only [ccAcc_zero_def, cardRow_zero_def] <;> ring

theorem processEntry_weighted_rate_numerator (M : PyDate) (acc : CCAcc) (e : CCEntry) :
    (processEntry M acc e).weighted_rate_numerator
      = acc.weighted_rate_numerator + (entryContrib M e).weighted_rate_numerator := by
  unfold entryContrib processEntry
  cases e.entry_type <;> split_ifs <;>
    simp only [ccAcc_zero_def, cardRow_zero_def] <;> ring

theorem processEntry_card_monthly_spend_amount (M : PyDate) (acc : CCAcc)
    (e : CCEntry) (cid : ℤ) :
    ((processEntry M acc e).per_card cid).monthly_spend_amount
      = (acc.per_card cid).monthly_spend_amount
        + ((entryContrib M e).per_card cid).monthly_spend_amount := by
  unfold entryContrib processEntry
  cases e.entry_type <;> split_ifs <;>
    simp only [ccAcc_zero_def, cardRow_zero_def] <;>
    by_cases h : cid = e.card.id <;> simp [h]

theorem processEntry_card_total_amount (M : PyDate) (acc : CCAcc)
    (e : CCEntry) (cid : ℤ) :
    ((processEntry M acc e).per_card cid).total_amount
      = (acc.per_card cid).total_amount
        + ((entryContrib M e).per_card cid).total_amount := by
  unfold entryContrib processEntry
  cases e.entry_type <;> split_ifs <;>
    simp only [ccAcc_zero_def, cardRow_zero_def] <;>
    by_cases h : cid = e.card.id <;> simp [h]

theorem processEntry_card_reward_estimate (M : PyDate) (acc : CCAcc)
    (e : CCEntry) (cid : ℤ) :
    ((processEntry M acc e).per_card cid).reward_estimate
      = (acc.per_card cid).reward_estimate
        + ((entryContrib M e).per_card cid).reward_estimate := by
  unfold entryContrib processEntry
  cases e.entry_type <;> split_ifs <;>
    simp only [ccAcc_zero_def, cardRow_zero_def] <;>
    by_cases h : cid = e.card.id <;> simp [h]

/-! ## Financial snapshot aggregator -/

/-- An `Income` record; `total_income` is `monthly_salary + other_income`. -/
structure IncomeR where
  monthly_salary : ℤ
  other_income : ℤ
deriving DecidableEq, Repr

/-- A `Budget` record; `total_expense` is the sum of the four categories. -/
structure BudgetR where
  grocery : ℤ
  rent : ℤ
  transport : ℤ
  entertainment : ℤ
deriving DecidableEq, Repr

/-- The `SystemSetting` thresholds read by `_financial_snapshot`. -/
structure Settings where
  emi_green_limit : ℚ
  emi_yellow_limit : ℚ
  high_interest_rate_limit : ℚ
  savings_target_percent : ℚ
deriving DecidableEq, Repr

/-- The green/yellow/red zones. -/
inductive Zone where
  | green
  | yellow
  | red
deriving DecidableEq, Repr

/-- The zone classification of `_financial_snapshot`, applied to
`emi_ratio` (→ `health_class`) and to `overall_burden_ratio`
(→ `overall_health_class`). -/
def healthClass (ratio green_limit yellow_limit : ℚ) : Zone :=
  if ratio < green_limit then .green
  else if ratio ≤ yellow_limit then .yellow
  else .red

/-- The fields of `_financial_snapshot`'s returned dict needed by the
claims and by `_risk_profile`. -/
structure FinSnapshot where
  total_income : ℤ
  loans : List Loan
  active_loans : List Loan
  upcoming_loans : List Loan
  closed_loans : List Loan
  total_emi : ℤ
  credit_card_due_estimate : ℚ
  total_monthly_obligation : ℚ
  emi_ratio : ℚ
  overall_burden_ratio : ℚ
  health_class : Zone
  overall_health_class : Zone
  total_budget_expense : ℤ
deriving DecidableEq, Repr

/-- `_financial_snapshot(user, settings_obj)`, with the externally
fetched records passed explicitly. -/
def financialSnapshot (income : Option IncomeR) (loans : List Loan)
    (budget : Option BudgetR) (entries : List CCEntry)
    (st : Settings) (today : PyDate) : FinSnapshot :=
  let total_income : ℤ := match income with
    | some i => i.monthly_salary + i.other_income
    | none => 0
  let active_loans := loans.filter (fun l => loanStatus today l = .active)
  let upcoming_loans := loans.filter (fun l => loanStatus today l = .upcoming)
  let closed_loans := loans.filter (fun l => loanStatus today l = .closed)
  let total_emi := (active_loans.map (fun l => l.monthly_emi)).sum
  let cc := creditCardSnapshot entries today
  let credit_card_total_emi := round2 cc.total_emi_amount
  let credit_card_total_spend := round2 cc.total_monthly_spend_amount
  let credit_card_due_estimate := round2 (credit_card_total_emi + credit_card_total_spend)
  let total_monthly_obligation := round2 ((total_emi : ℚ) + credit_card_due_estimate)
  let overall_burden_ratio :=
    if 0 < total_income then round2 ((total_monthly_obligation / (total_income : ℚ)) * 100)
    else if 0 < total_monthly_obligation then (100 : ℚ) else 0
  let emi_ratio :=
    if 0 < total_income then round2 (((total_emi : ℚ) / (total_income : ℚ)) * 100)
    else if 0 < total_emi then (100 : ℚ) else 0
  let total_budget_expense : ℤ := match budget with
    | some b => b.grocery + b.rent + b.transport + b.entertainment
    | none => 0
  { total_income := total_income
    loans := loans
    active_loans := active_loans
    upcoming_loans := upcoming_loans
    closed_loans := closed_loans
    total_emi := total_emi
    credit_card_due_estimate := credit_card_due_estimate
    total_monthly_obligation := total_monthly_obligation
    emi_ratio := emi_ratio
    overall_burden_ratio := overall_burden_ratio
    health_class := healthClass emi_ratio st.emi_green_limit st.emi_yellow_limit
    overall_health_class :=
      healthClass overall_burden_ratio st.emi_green_limit st.emi_yellow_limit
    total_budget_expense := total_budget_expense }

/-! ## Risk profile -/

/-- The risk levels of `_risk_profile`. -/
inductive RiskLevel where
  | high
  | medium
  | low
deriving DecidableEq, Repr

/-- The loan list `_risk_profile` inspects:
`snapshot.get('active_loans') or snapshot['loans']` (an empty active
list is falsy in Python, so it falls back to all loans). -/
def riskLoans (s : FinSnapshot) : List Loan :=
  if s.active_loans.isEmpty then s.loans else s.active_loans

/-- `_risk_profile(snapshot)`, restricted to the returned `level`. -/
def riskProfile (s : FinSnapshot) : RiskLevel :=
  let debt_load_ratio := max s.emi_ratio s.overall_burden_ratio
  let high_interest_extreme := ∃ l ∈ riskLoans s, (18 : ℚ) < l.interest_rate
  let has_many_loans := 3 < (riskLoans s).length
  let high_emi := (60 : ℚ) < debt_load_ratio
  let medium_emi := (40 : ℚ) ≤ debt_load_ratio ∧ debt_load_ratio ≤ 60
  let expense_spike := 0 < s.total_income ∧
    (s.total_income : ℚ) * (3/4) < (s.total_budget_expense : ℚ)
  if high_emi ∨ has_many_loans ∨ high_interest_extreme then .high
  else if medium_emi ∨ expense_spike then .medium
  else .low

/-! ## Evaluation helpers -/

theorem roundHalfEven_intCast (z : ℤ) : roundHalfEven (z : ℚ) = z := by
  unfold roundHalfEven
  simp

theorem round2_zero : round2 0 = 0 := by
  unfold round2 roundHalfEven
  norm_num

theorem round2_intCast (z : ℤ) : round2 (z : ℚ) = (z : ℚ) := by
  unfold round2
  have h : (z : ℚ) * 100 = ((z * 100 : ℤ) : ℚ) := by push_cast; ring
  rw [h, roundHalfEven_intCast]
  push_cast
  ring

theorem creditCardSnapshot_nil (ref : PyDate) :
    creditCardSnapshot [] ref = ⟨0, 0, 0, 0, 0, 0, 0, 0⟩ := by
  unfold creditCardSnapshot ccAccum
  simp [ccAcc_zero_def, round2_zero]

theorem upcoming_ne_active : LoanStatus.upcoming ≠ LoanStatus.active := by decide

theorem closed_ne_active : LoanStatus.closed ≠ LoanStatus.active := by decide

/-! ## Claims -/

/-- C1: the zone classifier used by `_financial_snapshot` (applied to
`emi_ratio` → `health_class` and to `overall_burden_ratio` →
`overall_health_class`) returns green exactly when the ratio is strictly
below the green limit, yellow exactly when it is between the green limit
(inclusive) and the yellow limit (inclusive), and red exactly when it is
strictly above the yellow limit; with limits 30/50, a ratio of exactly
30 is yellow, exactly 50 is yellow, and 50.01 is red. -/
theorem healthClass_spec (ratio g y : ℚ) (hgy : g < y) :
    (healthClass ratio g y = Zone.green ↔ ratio < g) ∧
    (healthClass ratio g y = Zone.yellow ↔ g ≤ ratio ∧ ratio ≤ y) ∧
    (healthClass ratio g y = Zone.red ↔ y < ratio) ∧
    (∀ income loans budget entries st today,
      (financialSnapshot income loans budget entries st today).health_class
        = healthClass (financialSnapshot income loans budget entries st today).emi_ratio
            st.emi_green_limit st.emi_yellow_limit ∧
      (financialSnapshot income loans budget entries st today).overall_health_class
        = healthClass
            (financialSnapshot income loans budget entries st today).overall_burden_ratio
            st.emi_green_limit st.emi_yellow_limit) ∧
    healthClass 30 30 50 = Zone.yellow ∧
    healthClass 50 30 50 = Zone.yellow ∧
    healthClass (5001/100) 30 50 = Zone.red := by
  refine ⟨?_, ?_, ?_, ?_, by norm_num [healthClass], by norm_num [healthClass],
    by norm_num [healthClass]⟩
  · unfold healthClass
    split_ifs with h1 h2 <;> simp <;> linarith
  · unfold healthClass
    split_ifs with h1 h2
    · simp
      intro hge
      linarith
    · simp
      exact ⟨by linarith, h2⟩
    · simp
      intro hge
      exact lt_of_not_le h2
  · unfold healthClass
    split_ifs with h1 h2 <;> simp <;> linarith
  · intro income loans budget entries st today
    exact ⟨rfl, rfl⟩

theorem healthClass_spec_witness :
    ((30 : ℚ) < 50) ∧ (healthClass 42 30 50 = Zone.yellow ↔ (30:ℚ) ≤ 42 ∧ (42:ℚ) ≤ 50) :=
  ⟨by norm_num, (healthClass_spec 42 30 50 (by norm_num)).2.1⟩

/-- C2: when `total_income = 0`, `_financial_snapshot` sets `emi_ratio`
to 100 if `total_emi > 0` (else 0) and `overall_burden_ratio` to 100 if
`total_monthly_obligation > 0` (else 0), without failing; concretely,
with no income record, one active loan with monthly EMI 10000 and no
card entries, it reports `total_income = 0`, both ratios 100 and both
health classes red under the default 30/50 thresholds. -/
theorem financialSnapshot_zero_income (income : Option IncomeR) (loans : List Loan)
    (budget : Option BudgetR) (entries : List CCEntry) (st : Settings) (today : PyDate)
    (h : (financialSnapshot income loans budget entries st today).total_income = 0) :
    ((financialSnapshot income loans budget entries st today).emi_ratio
       = if 0 < (financialSnapshot income loans budget entries st today).total_emi
         then 100 else 0) ∧
    ((financialSnapshot income loans budget entries st today).overall_burden_ratio
       = if 0 < (financialSnapshot income loans budget entries st today).total_monthly_obligation
         then 100 else 0) ∧
    ((financialSnapshot none
        [⟨500000, 10000, 10, ⟨2025, 1, 1⟩, ⟨2026, 1, 1⟩⟩] none []
        ⟨30, 50, 12, 20⟩ ⟨2025, 6, 15⟩).total_income = 0 ∧
     (financialSnapshot none
        [⟨500000, 10000, 10, ⟨2025, 1, 1⟩, ⟨2026, 1, 1⟩⟩] none []
        ⟨30, 50, 12, 20⟩ ⟨2025, 6, 15⟩).emi_ratio = 100 ∧
     (financialSnapshot none
        [⟨500000, 10000, 10, ⟨2025, 1, 1⟩, ⟨2026, 1, 1⟩⟩] none []
        ⟨30, 50, 12, 20⟩ ⟨2025, 6, 15⟩).overall_burden_ratio = 100 ∧
     (financialSnapshot none
        [⟨500000, 10000, 10, ⟨2025, 1, 1⟩, ⟨2026, 1, 1⟩⟩] none []
        ⟨30, 50, 12, 20⟩ ⟨2025, 6, 15⟩).health_class = Zone.red ∧
     (financialSnapshot none
        [⟨500000, 10000, 10, ⟨2025, 1, 1⟩, ⟨2026, 1, 1⟩⟩] none []
        ⟨30, 50, 12, 20⟩ ⟨2025, 6, 15⟩).overall_health_class = Zone.red) := by
  have h1 : round2 (10000 : ℚ) = 10000 := by
    have := round2_intCast 10000
    norm_num at this
    exact this
  refine ⟨?_, ?_, ?_, ?_, ?_, ?_, ?_⟩
  · simp only [financialSnapshot] at h ⊢
    rw [h]
    norm_num
  · simp only [financialSnapshot] at h ⊢
    rw [h]
    norm_num
  · norm_num [financialSnapshot]
  · norm_num [financialSnapshot, creditCardSnapshot_nil, loanStatus, PyDate.lt_def,
      round2_zero, h1]
  · norm_num [financialSnapshot, creditCardSnapshot_nil, loanStatus, PyDate.lt_def,
      round2_zero, h1]
  · norm_num [financialSnapshot, creditCardSnapshot_nil, loanStatus, PyDate.lt_def,
      round2_zero, h1, healthClass]
  · norm_num [financialSnapshot, creditCardSnapshot_nil, loanStatus, PyDate.lt_def,
      round2_zero, h1, healthClass]

theorem financialSnapshot_zero_income_witness :
    (financialSnapshot none
        [⟨500000, 10000, 10, ⟨2025, 1, 1⟩, ⟨2026, 1, 1⟩⟩] none []
        ⟨30, 50, 12, 20⟩ ⟨2025, 6, 15⟩).emi_ratio
      = if 0 < (financialSnapshot none
          [⟨500000, 10000, 10, ⟨2025, 1, 1⟩, ⟨2026, 1, 1⟩⟩] none []
          ⟨30, 50, 12, 20⟩ ⟨2025, 6, 15⟩).total_emi then 100 else 0 :=
  (financialSnapshot_zero_income none
    [⟨500000, 10000, 10, ⟨2025, 1, 1⟩, ⟨2026, 1, 1⟩⟩] none []
    ⟨30, 50, 12, 20⟩ ⟨2025, 6, 15⟩ (by norm_num [financialSnapshot])).1

/-- C6 (counterexample): for `start = 2025-01-31` and `period = 2`, the
shifted end date is clamped to 2025-02-28 and the round-trip through
`_loan_period_months` returns 1, not 2. -/
theorem loanPeriodMonths_roundtrip_cx :
    shiftDateByMonths ⟨2025, 1, 31⟩ (2 - 1) = ⟨2025, 2, 28⟩ ∧
    loanPeriodMonths ⟨2025, 1, 31⟩ (shiftDateByMonths ⟨2025, 1, 31⟩ (2 - 1)) = 1 := by
  decide

/-- C6 (amended): `_loan_period_months` always returns at least 1, and
the round-trip `loan_period_months(start, shift_date_by_months(start,
period-1)) = period` holds for `period ≥ 1` whenever the shifted date's
day is not clamped (the start day fits in the target month). -/
theorem loanPeriodMonths_roundtrip (s : PyDate) (p : ℤ) (hp : 1 ≤ p)
    (hday : s.day ≤ daysInMonth (shiftDateByMonths s (p - 1)).year
      (shiftDateByMonths s (p - 1)).month) :
    (∀ a b : PyDate, 1 ≤ loanPeriodMonths a b) ∧
    loanPeriodMonths s (shiftDateByMonths s (p - 1)) = p := by
  constructor
  · intro a b
    simp only [loanPeriodMonths]
    exact le_max_left _ _
  · simp only [shiftDateByMonths] at hday ⊢
    simp only [loanPeriodMonths]
    rw [min_eq_left hday]
    simp only [le_refl, if_true]
    have hx : (s.year + (s.month - 1 + (p - 1)) / 12 - s.year) * 12
        + ((s.month - 1 + (p - 1)) % 12 + 1 - s.month) + 1 = p := by omega
    rw [hx]
    exact sup_eq_right.mpr hp

theorem loanPeriodMonths_roundtrip_witness :
    loanPeriodMonths ⟨2025, 1, 15⟩ (shiftDateByMonths ⟨2025, 1, 15⟩ (12 - 1)) = 12 :=
  (loanPeriodMonths_roundtrip ⟨2025, 1, 15⟩ 12 (by norm_num) (by decide)).2

/-- C10: with a positive monthly rate and tenure ≥ 1, `_emi_from_rate`
never reaches its degenerate-denominator `None` branch, and
`_calculate_monthly_emi` returns an integer EMI ≥ 1. -/
theorem emiFromRate_pos_total (P r : ℚ) (n : ℤ) (hr : 0 < r) (hn : 1 ≤ n) :
    (∃ e, emiFromRate P r n = some e) ∧
    (∃ k, calculateMonthlyEmi P r n = some k ∧ 1 ≤ k) := by
  have h1r : (1:ℚ) < 1 + r := by linarith
  have hnn : n.toNat ≠ 0 := by omega
  have hfac : (1:ℚ) < (1 + r) ^ n.toNat := (one_lt_pow_iff_of_nonneg (by linarith) hnn).mpr h1r
  have hsome : emiFromRate P r n
      = some (P * r * ((1 + r) ^ n.toNat) / ((1 + r) ^ n.toNat - 1)) := by
    unfold emiFromRate
    rw [if_neg (by omega), if_neg (by linarith)]
    simp only
    rw [if_neg (by linarith)]
  refine ⟨⟨_, hsome⟩,
    ⟨max 1 (roundHalfEven (P * r * ((1 + r) ^ n.toNat) / ((1 + r) ^ n.toNat - 1))),
      ?_, le_max_left _ _⟩⟩
  unfold calculateMonthlyEmi
  rw [hsome]
  rfl

theorem emiFromRate_pos_total_witness :
    (∃ e, emiFromRate 100000 (1/100) 12 = some e) ∧
    (∃ k, calculateMonthlyEmi 100000 (1/100) 12 = some k ∧ 1 ≤ k) :=
  emiFromRate_pos_total 100000 (1/100) 12 (by norm_num) (by norm_num)

theorem ccAccum_total_amount (entries : List CCEntry) (ref : PyDate) :
    (ccAccum entries ref).total_amount
      = (entries.map (fun e => (entryContrib (monthStartValue ref) e).total_amount)).sum := by
  unfold ccAccum
  have := foldl_proj_sum (monthStartValue ref) (fun a => a.total_amount)
    (fun acc e => processEntry_total_amount _ acc e) entries 0
  simpa [ccAcc_zero_def] using this

theorem ccAccum_weighted_rate_numerator (entries : List CCEntry) (ref : PyDate) :
    (ccAccum entries ref).weighted_rate_numerator
      = (entries.map
          (fun e => (entryContrib (monthStartValue ref) e).weighted_rate_numerator)).sum := by
  unfold ccAccum
  have := foldl_proj_sum (monthStartValue ref) (fun a => a.weighted_rate_numerator)
    (fun acc e => processEntry_weighted_rate_numerator _ acc e) entries 0
  simpa [ccAcc_zero_def] using this

/-- Inserting one entry anywhere in the list shifts any `+=`-accumulated
projection by exactly that entry's contribution. -/
theorem ccAccum_insert (ref : PyDate) (f : CCAcc → ℚ)
    (hf : ∀ acc e, f (processEntry (monthStartValue ref) acc e)
      = f acc + f (entryContrib (monthStartValue ref) e))
    (pre post : List CCEntry) (e : CCEntry) :
    f (ccAccum (pre ++ e :: post) ref)
      = f (ccAccum (pre ++ post) ref) + f (entryContrib (monthStartValue ref) e) := by
  unfold ccAccum
  rw [foldl_proj_sum _ f hf, foldl_proj_sum _ f hf]
  simp only [List.map_append, List.sum_append, List.map_cons, List.sum_cons]
  ring

/-- A monthly-spend entry from a different statement month contributes
zero to every accumulated amount (only the per-card entry counter
moves). -/
theorem entryContrib_spend_excluded (M : PyDate) (e : CCEntry)
    (hty : e.entry_type = EntryType.monthlySpend)
    (hm : monthStartValue e.entry_month ≠ M) :
    (entryContrib M e).total_emi_monthly_due = 0 ∧
    (entryContrib M e).total_monthly_spend_amount = 0 ∧
    (entryContrib M e).total_emi_remaining_balance = 0 ∧
    (entryContrib M e).total_amount = 0 ∧
    (entryContrib M e).total_interest_estimate = 0 ∧
    (entryContrib M e).total_reward_estimate = 0 ∧
    (entryContrib M e).weighted_rate_numerator = 0 ∧
    (∀ cid, ((entryContrib M e).per_card cid).monthly_spend_amount = 0 ∧
      ((entryContrib M e).per_card cid).total_amount = 0 ∧
      ((entryContrib M e).per_card cid).reward_estimate = 0) := by
  simp only [entryContrib, processEntry, hty, if_pos hm]
  refine ⟨rfl, rfl, rfl, rfl, rfl, rfl, rfl, ?_⟩
  intro cid
  by_cases h : cid = e.card.id <;>
    simp [h, ccAcc_zero_def, cardRow_zero_def]

/-- A monthly-spend entry of the current statement month contributes its
(clamped) amount to the spend and outstanding totals and its reward
estimate to the reward total, both per card and portfolio-wide. -/
theorem entryContrib_spend_included (M : PyDate) (e : CCEntry)
    (hty : e.entry_type = EntryType.monthlySpend)
    (hm : monthStartValue e.entry_month = M) :
    (entryContrib M e).total_monthly_spend_amount = ccEntrySpend e ∧
    (entryContrib M e).total_amount = ccEntrySpend e ∧
    (entryContrib M e).total_reward_estimate = ccEntryReward e ∧
    (entryContrib M e).weighted_rate_numerator = 0 ∧
    ((entryContrib M e).per_card e.card.id).monthly_spend_amount = ccEntrySpend e ∧
    ((entryContrib M e).per_card e.card.id).total_amount = ccEntrySpend e ∧
    ((entryContrib M e).per_card e.card.id).reward_estimate = ccEntryReward e := by
  have hne : ¬ (monthStartValue e.entry_month ≠ M) := not_not_intro hm
  simp only [entryContrib, processEntry, hty, if_neg hne]
  refine ⟨?_, ?_, ?_, ?_, ?_, ?_, ?_⟩ <;>
    simp [ccAcc_zero_def, cardRow_zero_def]

/-- An EMI entry outside its tenure window (upcoming or closed)
contributes zero to every accumulated amount. -/
theorem entryContrib_emi_excluded (M : PyDate) (e : CCEntry)
    (hty : e.entry_type = EntryType.emi)
    (hcase : ccEntryElapsed M e < 0 ∨ ccEntryTenure e ≤ ccEntryElapsed M e) :
    (entryContrib M e).total_emi_monthly_due = 0 ∧
    (entryContrib M e).total_monthly_spend_amount = 0 ∧
    (entryContrib M e).total_emi_remaining_balance = 0 ∧
    (entryContrib M e).total_amount = 0 ∧
    (entryContrib M e).total_interest_estimate = 0 ∧
    (entryContrib M e).total_reward_estimate = 0 ∧
    (entryContrib M e).weighted_rate_numerator = 0 := by
  rcases hcase with hup | hcl
  · simp only [entryContrib, processEntry, hty, if_pos hup]
    exact ⟨rfl, rfl, rfl, rfl, rfl, rfl, rfl⟩
  · by_cases hup : ccEntryElapsed M e < 0
    · simp only [entryContrib, processEntry, hty, if_pos hup]
      exact ⟨rfl, rfl, rfl, rfl, rfl, rfl, rfl⟩
    · simp only [entryContrib, processEntry, hty, if_neg hup, if_pos hcl]
      exact ⟨rfl, rfl, rfl, rfl, rfl, rfl, rfl⟩

/-- An EMI entry inside its tenure window contributes its monthly due,
remaining balance, interest estimate and weighted-APR numerator term. -/
theorem entryContrib_emi_active (M : PyDate) (e : CCEntry)
    (hty : e.entry_type = EntryType.emi)
    (h0 : 0 ≤ ccEntryElapsed M e) (hlt : ccEntryElapsed M e < ccEntryTenure e) :
    (entryContrib M e).total_emi_monthly_due = ccEntryMonthlyDue e ∧
    (entryContrib M e).total_emi_remaining_balance = ccEntryRemaining M e ∧
    (entryContrib M e).total_amount = ccEntryRemaining M e ∧
    (entryContrib M e).total_interest_estimate = ccEntryInterest M e ∧
    (entryContrib M e).weighted_rate_numerator
      = ccEntryRemaining M e * e.card.emi_interest_rate := by
  have hup : ¬ ccEntryElapsed M e < 0 := not_lt.mpr h0
  have hcl : ¬ ccEntryTenure e ≤ ccEntryElapsed M e := not_le.mpr hlt
  simp only [entryContrib, processEntry, hty, if_neg hup, if_neg hcl]
  refine ⟨?_, ?_, ?_, ?_, ?_⟩ <;> simp [ccAcc_zero_def]

/-- C3: a MONTHLY_SPEND entry counts toward the per-card and portfolio
totals (spend amount, total outstanding, reward estimate) iff its
statement month equals the first-of-month of the reference date; an
entry from any other month leaves the whole snapshot unchanged.
Concretely, a 9000 spend in the previous month plus a 4000 spend in the
current month total 4000, not 13000. -/
theorem ccSnapshot_spend_current_month_only (pre post : List CCEntry) (e : CCEntry)
    (ref : PyDate) (hty : e.entry_type = EntryType.monthlySpend) :
    (monthStartValue e.entry_month ≠ monthStartValue ref →
      creditCardSnapshot (pre ++ e :: post) ref = creditCardSnapshot (pre ++ post) ref ∧
      (∀ cid,
        ((ccAccum (pre ++ e :: post) ref).per_card cid).monthly_spend_amount
          = ((ccAccum (pre ++ post) ref).per_card cid).monthly_spend_amount ∧
        ((ccAccum (pre ++ e :: post) ref).per_card cid).total_amount
          = ((ccAccum (pre ++ post) ref).per_card cid).total_amount ∧
        ((ccAccum (pre ++ e :: post) ref).per_card cid).reward_estimate
          = ((ccAccum (pre ++ post) ref).per_card cid).reward_estimate)) ∧
    (monthStartValue e.entry_month = monthStartValue ref →
      (ccAccum (pre ++ e :: post) ref).total_monthly_spend_amount
        = (ccAccum (pre ++ post) ref).total_monthly_spend_amount + ccEntrySpend e ∧
      (ccAccum (pre ++ e :: post) ref).total_amount
        = (ccAccum (pre ++ post) ref).total_amount + ccEntrySpend e ∧
      (ccAccum (pre ++ e :: post) ref).total_reward_estimate
        = (ccAccum (pre ++ post) ref).total_reward_estimate + ccEntryReward e ∧
      ((ccAccum (pre ++ e :: post) ref).per_card e.card.id).monthly_spend_amount
        = ((ccAccum (pre ++ post) ref).per_card e.card.id).monthly_spend_amount
          + ccEntrySpend e ∧
      ((ccAccum (pre ++ e :: post) ref).per_card e.card.id).total_amount
        = ((ccAccum (pre ++ post) ref).per_card e.card.id).total_amount + ccEntrySpend e ∧
      ((ccAccum (pre ++ e :: post) ref).per_card e.card.id).reward_estimate
        = ((ccAccum (pre ++ post) ref).per_card e.card.id).reward_estimate
          + ccEntryReward e) ∧
    (creditCardSnapshot
        [⟨⟨1, 100000, 0, 0⟩, EntryType.monthlySpend, ⟨2025, 5, 1⟩, 9000, 1⟩,
         ⟨⟨1, 100000, 0, 0⟩, EntryType.monthlySpend, ⟨2025, 6, 1⟩, 4000, 1⟩]
        ⟨2025, 6, 15⟩).total_monthly_spend_amount = 4000 := by
  refine ⟨?_, ?_, ?_⟩
  · intro hm
    obtain ⟨hz1, hz2, hz3, hz4, hz5, hz6, hz7, hzc⟩ :=
      entryContrib_spend_excluded (monthStartValue ref) e hty hm
    have e1 := ccAccum_insert ref (fun a => a.total_emi_monthly_due)
      (fun acc x => processEntry_total_emi_monthly_due _ acc x) pre post e
    have e2 := ccAccum_insert ref (fun a => a.total_monthly_spend_amount)
      (fun acc x => processEntry_total_monthly_spend_amount _ acc x) pre post e
    have e3 := ccAccum_insert ref (fun a => a.total_emi_remaining_balance)
      (fun acc x => processEntry_total_emi_remaining_balance _ acc x) pre post e
    have e4 := ccAccum_insert ref (fun a => a.total_amount)
      (fun acc x => processEntry_total_amount _ acc x) pre post e
    have e5 := ccAccum_insert ref (fun a => a.total_interest_estimate)
      (fun acc x => processEntry_total_interest_estimate _ acc x) pre post e
    have e6 := ccAccum_insert ref (fun a => a.total_reward_estimate)
      (fun acc x => processEntry_total_reward_estimate _ acc x) pre post e
    have e7 := ccAccum_insert ref (fun a => a.weighted_rate_numerator)
      (fun acc x => processEntry_weighted_rate_numerator _ acc x) pre post e
    simp only [hz1, hz2, hz3, hz4, hz5, hz6, hz7, add_zero] at e1 e2 e3 e4 e5 e6 e7
    constructor
    · simp only [creditCardSnapshot]
      rw [e1, e2, e3, e4, e5, e6, e7]
    · intro cid
      obtain ⟨hc1, hc2, hc3⟩ := hzc cid
      have f1 := ccAccum_insert ref (fun a => (a.per_card cid).monthly_spend_amount)
        (fun acc x => processEntry_card_monthly_spend_amount _ acc x cid) pre post e
      have f2 := ccAccum_insert ref (fun a => (a.per_card cid).total_amount)
        (fun acc x => processEntry_card_total_amount _ acc x cid) pre post e
      have f3 := ccAccum_insert ref (fun a => (a.per_card cid).reward_estimate)
        (fun acc x => processEntry_card_reward_estimate _ acc x cid) pre post e
      simp only [hc1, hc2, hc3, add_zero] at f1 f2 f3
      exact ⟨f1, f2, f3⟩
  · intro hm
    obtain ⟨hs1, hs2, hs3, _hs4, hs5, hs6, hs7⟩ :=
      entryContrib_spend_included (monthStartValue ref) e hty hm
    have e2 := ccAccum_insert ref (fun a => a.total_monthly_spend_amount)
      (fun acc x => processEntry_total_monthly_spend_amount _ acc x) pre post e
    have e4 := ccAccum_insert ref (fun a => a.total_amount)
      (fun acc x => processEntry_total_amount _ acc x) pre post e
    have e6 := ccAccum_insert ref (fun a => a.total_reward_estimate)
      (fun acc x => processEntry_total_reward_estimate _ acc x) pre post e
    have f1 := ccAccum_insert ref (fun a => (a.per_card e.card.id).monthly_spend_amount)
      (fun acc x => processEntry_card_monthly_spend_amount _ acc x e.card.id) pre post e
    have f2 := ccAccum_insert ref (fun a => (a.per_card e.card.id).total_amount)
      (fun acc x => processEntry_card_total_amount _ acc x e.card.id) pre post e
    have f3 := ccAccum_insert ref (fun a => (a.per_card e.card.id).reward_estimate)
      (fun acc x => processEntry_card_reward_estimate _ acc x e.card.id) pre post e
    simp only [hs1, hs2, hs3, hs5, hs6, hs7] at e2 e4 e6 f1 f2 f3
    exact ⟨e2, e4, e6, f1, f2, f3⟩
  · have h4 : round2 (4000 : ℚ) = 4000 := by
      have := round2_intCast 4000
      norm_num at this
      exact this
    norm_num [creditCardSnapshot, ccAccum, processEntry, ccEntrySpend,
      monthStartValue, PyDate.ext_iff, ccAcc_zero_def, cardRow_zero_def, h4]
    rw [show (0 : CCAcc).total_monthly_spend_amount = 0 from rfl, zero_add, h4]

theorem ccSnapshot_spend_current_month_only_witness :
    (creditCardSnapshot
        [⟨⟨1, 100000, 0, 0⟩, EntryType.monthlySpend, ⟨2025, 5, 1⟩, 9000, 1⟩,
         ⟨⟨1, 100000, 0, 0⟩, EntryType.monthlySpend, ⟨2025, 6, 1⟩, 4000, 1⟩]
        ⟨2025, 6, 15⟩).total_monthly_spend_amount = 4000 :=
  (ccSnapshot_spend_current_month_only []
    [⟨⟨1, 100000, 0, 0⟩, EntryType.monthlySpend, ⟨2025, 6, 1⟩, 4000, 1⟩]
    ⟨⟨1, 100000, 0, 0⟩, EntryType.monthlySpend, ⟨2025, 5, 1⟩, 9000, 1⟩
    ⟨2025, 6, 15⟩ rfl).2.2

/-- C4: a credit-card EMI entry with `elapsed = month_gap(entry_month,
reference_month)` outside `[0, tenure_months)` (upcoming or closed)
leaves every portfolio total unchanged — EMI due, remaining balance,
total outstanding, interest estimate and the weighted-APR numerator —
while an entry with `0 ≤ elapsed < tenure_months` contributes exactly
its monthly due and remaining balance (plus the derived interest and
numerator terms) to the totals. -/
theorem ccSnapshot_emi_window_filter (pre post : List CCEntry) (e : CCEntry)
    (ref : PyDate) (hty : e.entry_type = EntryType.emi)
    (hten : 1 ≤ e.tenure_months) :
    (ccEntryElapsed (monthStartValue ref) e < 0 ∨
        e.tenure_months ≤ ccEntryElapsed (monthStartValue ref) e →
      creditCardSnapshot (pre ++ e :: post) ref = creditCardSnapshot (pre ++ post) ref ∧
      (ccAccum (pre ++ e :: post) ref).weighted_rate_numerator
        = (ccAccum (pre ++ post) ref).weighted_rate_numerator) ∧
    (0 ≤ ccEntryElapsed (monthStartValue ref) e →
      ccEntryElapsed (monthStartValue ref) e < e.tenure_months →
      (ccAccum (pre ++ e :: post) ref).total_emi_monthly_due
        = (ccAccum (pre ++ post) ref).total_emi_monthly_due + ccEntryMonthlyDue e ∧
      (ccAccum (pre ++ e :: post) ref).total_emi_remaining_balance
        = (ccAccum (pre ++ post) ref).total_emi_remaining_balance
          + ccEntryRemaining (monthStartValue ref) e ∧
      (ccAccum (pre ++ e :: post) ref).total_amount
        = (ccAccum (pre ++ post) ref).total_amount
          + ccEntryRemaining (monthStartValue ref) e ∧
      (ccAccum (pre ++ e :: post) ref).total_interest_estimate
        = (ccAccum (pre ++ post) ref).total_interest_estimate
          + ccEntryInterest (monthStartValue ref) e ∧
      (ccAccum (pre ++ e :: post) ref).weighted_rate_numerator
        = (ccAccum (pre ++ post) ref).weighted_rate_numerator
          + ccEntryRemaining (monthStartValue ref) e * e.card.emi_interest_rate) := by
  have htrw : ccEntryTenure e = e.tenure_months := max_eq_right hten
  constructor
  · intro hcase
    obtain ⟨hz1, hz2, hz3, hz4, hz5, hz6, hz7⟩ :=
      entryContrib_emi_excluded (monthStartValue ref) e hty (by rw [htrw]; exact hcase)
    have e1 := ccAccum_insert ref (fun a => a.total_emi_monthly_due)
      (fun acc x => processEntry_total_emi_monthly_due _ acc x) pre post e
    have e2 := ccAccum_insert ref (fun a => a.total_monthly_spend_amount)
      (fun acc x => processEntry_total_monthly_spend_amount _ acc x) pre post e
    have e3 := ccAccum_insert ref (fun a => a.total_emi_remaining_balance)
      (fun acc x => processEntry_total_emi_remaining_balance _ acc x) pre post e
    have e4 := ccAccum_insert ref (fun a => a.total_amount)
      (fun acc x => processEntry_total_amount _ acc x) pre post e
    have e5 := ccAccum_insert ref (fun a => a.total_interest_estimate)
      (fun acc x => processEntry_total_interest_estimate _ acc x) pre post e
    have e6 := ccAccum_insert ref (fun a => a.total_reward_estimate)
      (fun acc x => processEntry_total_reward_estimate _ acc x) pre post e
    have e7 := ccAccum_insert ref (fun a => a.weighted_rate_numerator)
      (fun acc x => processEntry_weighted_rate_numerator _ acc x) pre post e
    simp only [hz1, hz2, hz3, hz4, hz5, hz6, hz7, add_zero] at e1 e2 e3 e4 e5 e6 e7
    constructor
    · simp only [creditCardSnapshot]
      rw [e1, e2, e3, e4, e5, e6, e7]
    · exact e7
  · intro h0 hlt
    obtain ⟨ha1, ha2, ha3, ha4, ha5⟩ :=
      entryContrib_emi_active (monthStartValue ref) e hty h0 (by rw [htrw]; exact hlt)
    have e1 := ccAccum_insert ref (fun a => a.total_emi_monthly_due)
      (fun acc x => processEntry_total_emi_monthly_due _ acc x) pre post e
    have e3 := ccAccum_insert ref (fun a => a.total_emi_remaining_balance)
      (fun acc x => processEntry_total_emi_remaining_balance _ acc x) pre post e
    have e4 := ccAccum_insert ref (fun a => a.total_amount)
      (fun acc x => processEntry_total_amount _ acc x) pre post e
    have e5 := ccAccum_insert ref (fun a => a.total_interest_estimate)
      (fun acc x => processEntry_total_interest_estimate _ acc x) pre post e
    have e7 := ccAccum_insert ref (fun a => a.weighted_rate_numerator)
      (fun acc x => processEntry_weighted_rate_numerator _ acc x) pre post e
    simp only [ha1, ha2, ha3, ha4, ha5] at e1 e3 e4 e5 e7
    exact ⟨e1, e3, e4, e5, e7⟩

theorem ccSnapshot_emi_window_filter_witness :
    (ccAccum
        [⟨⟨1, 0, 0, 0⟩, EntryType.emi, ⟨2025, 5, 1⟩, 12000, 12⟩]
        ⟨2025, 6, 15⟩).total_emi_monthly_due
      = (ccAccum [] ⟨2025, 6, 15⟩).total_emi_monthly_due
        + ccEntryMonthlyDue ⟨⟨1, 0, 0, 0⟩, EntryType.emi, ⟨2025, 5, 1⟩, 12000, 12⟩ :=
  ((ccSnapshot_emi_window_filter [] []
    ⟨⟨1, 0, 0, 0⟩, EntryType.emi, ⟨2025, 5, 1⟩, 12000, 12⟩
    ⟨2025, 6, 15⟩ rfl (by norm_num)).2 (by decide) (by decide)).1

/-- C8: the reported weighted APR is the outstanding-weighted average of
per-entry annual rates, rounded to two decimals: the quotient of the sum
of per-entry numerator terms (remaining balance × card EMI rate for
in-window EMI entries, 0 for spend entries) by the sum of per-entry
outstanding amounts (every contributing entry's outstanding counts in
the denominator); it is 0 when the total outstanding is 0. -/
theorem ccSnapshot_weighted_apr (entries : List CCEntry) (ref : PyDate) :
    (0 < (entries.map
        (fun e => (entryContrib (monthStartValue ref) e).total_amount)).sum →
      (creditCardSnapshot entries ref).weighted_apr
        = round2 ((entries.map
            (fun e => (entryContrib (monthStartValue ref) e).weighted_rate_numerator)).sum
          / (entries.map
            (fun e => (entryContrib (monthStartValue ref) e).total_amount)).sum)) ∧
    ((entries.map
        (fun e => (entryContrib (monthStartValue ref) e).total_amount)).sum = 0 →
      (creditCardSnapshot entries ref).weighted_apr = 0) ∧
    (∀ e : CCEntry, e.entry_type = EntryType.emi →
      0 ≤ ccEntryElapsed (monthStartValue ref) e →
      ccEntryElapsed (monthStartValue ref) e < ccEntryTenure e →
      (entryContrib (monthStartValue ref) e).weighted_rate_numerator
        = (entryContrib (monthStartValue ref) e).total_amount
          * e.card.emi_interest_rate) ∧
    (∀ e : CCEntry, e.entry_type = EntryType.monthlySpend →
      (entryContrib (monthStartValue ref) e).weighted_rate_numerator = 0) := by
  refine ⟨?_, ?_, ?_, ?_⟩
  · intro hpos
    simp only [creditCardSnapshot]
    rw [ccAccum_total_amount, ccAccum_weighted_rate_numerator, if_pos hpos]
  · intro hzero
    simp only [creditCardSnapshot]
    rw [ccAccum_total_amount, hzero]
    norm_num
  · intro e hty h0 hlt
    obtain ⟨_, _, ha3, _, ha5⟩ := entryContrib_emi_active (monthStartValue ref) e hty h0 hlt
    rw [ha3, ha5]
  · intro e hty
    by_cases hm : monthStartValue e.entry_month = monthStartValue ref
    · exact (entryContrib_spend_included (monthStartValue ref) e hty hm).2.2.2.1
    · exact (entryContrib_spend_excluded (monthStartValue ref) e hty hm).2.2.2.2.2.2.1

theorem ccSnapshot_weighted_apr_witness :
    ((0:ℚ) <
      ([⟨⟨1, 0, 0, 0⟩, EntryType.emi, ⟨2025, 6, 1⟩, 12000, 12⟩].map
        (fun e => (entryContrib
          (monthStartValue (⟨2025, 6, 15⟩ : PyDate)) e).total_amount)).sum) ∧
    (creditCardSnapshot [⟨⟨1, 0, 0, 0⟩, EntryType.emi, ⟨2025, 6, 1⟩, 12000, 12⟩]
        ⟨2025, 6, 15⟩).weighted_apr
      = round2 (([⟨⟨1, 0, 0, 0⟩, EntryType.emi, ⟨2025, 6, 1⟩, 12000, 12⟩].map
          (fun e => (entryContrib
            (monthStartValue (⟨2025, 6, 15⟩ : PyDate)) e).weighted_rate_numerator)).sum
        / ([⟨⟨1, 0, 0, 0⟩, EntryType.emi, ⟨2025, 6, 1⟩, 12000, 12⟩].map
          (fun e => (entryContrib
            (monthStartValue (⟨2025, 6, 15⟩ : PyDate)) e).total_amount)).sum) := by
  have hrem : ccEntryRemaining (monthStartValue (⟨2025, 6, 15⟩ : PyDate))
      ⟨⟨1, 0, 0, 0⟩, EntryType.emi, ⟨2025, 6, 1⟩, 12000, 12⟩ = 12000 := by
    have h12000 : round2 (12000 : ℚ) = 12000 := by
      have := round2_intCast 12000
      norm_num at this
      exact this
    unfold ccEntryRemaining cardEmiRemainingBalance ccEntryTenure ccEntryElapsed
      monthStartValue monthGap
    norm_num
    exact h12000
  have h0 : (0:ℚ) <
      ([⟨⟨1, 0, 0, 0⟩, EntryType.emi, ⟨2025, 6, 1⟩, 12000, 12⟩].map
        (fun e => (entryContrib
          (monthStartValue (⟨2025, 6, 15⟩ : PyDate)) e).total_amount)).sum := by
    have ha := entryContrib_emi_active (monthStartValue (⟨2025, 6, 15⟩ : PyDate))
      ⟨⟨1, 0, 0, 0⟩, EntryType.emi, ⟨2025, 6, 1⟩, 12000, 12⟩ rfl
      (by decide) (by decide)
    simp only [List.map_cons, List.map_nil, List.sum_cons, List.sum_nil, add_zero]
    rw [ha.2.2.1, hrem]
    norm_num
  exact ⟨h0, (ccSnapshot_weighted_apr _ _).1 h0⟩

/-- C9 (counterexample): the claimed risk classification fails on two
reachable snapshots. First, with four upcoming loans at 5% (none
active), income 10000 and no debt, the code classifies high risk even
though there are no more than 3 active loans, no loan above 18% and the
debt-load ratio is at most 60 (the code falls back to counting all
loans when no loan is active). Second, with no income, a budget of 5000
and no loans, the code classifies low risk even though
budget > income × 0.75 holds (the code additionally requires positive
income for the expense-spike trigger). -/
theorem riskProfile_cx :
    (riskProfile (financialSnapshot (some ⟨10000, 0⟩)
        [⟨100000, 5000, 5, ⟨2025, 8, 1⟩, ⟨2026, 8, 1⟩⟩,
         ⟨100000, 5000, 5, ⟨2025, 8, 1⟩, ⟨2026, 8, 1⟩⟩,
         ⟨100000, 5000, 5, ⟨2025, 8, 1⟩, ⟨2026, 8, 1⟩⟩,
         ⟨100000, 5000, 5, ⟨2025, 8, 1⟩, ⟨2026, 8, 1⟩⟩]
        none [] ⟨30, 50, 12, 20⟩ ⟨2025, 6, 15⟩) = RiskLevel.high ∧
      (financialSnapshot (some ⟨10000, 0⟩)
        [⟨100000, 5000, 5, ⟨2025, 8, 1⟩, ⟨2026, 8, 1⟩⟩,
         ⟨100000, 5000, 5, ⟨2025, 8, 1⟩, ⟨2026, 8, 1⟩⟩,
         ⟨100000, 5000, 5, ⟨2025, 8, 1⟩, ⟨2026, 8, 1⟩⟩,
         ⟨100000, 5000, 5, ⟨2025, 8, 1⟩, ⟨2026, 8, 1⟩⟩]
        none [] ⟨30, 50, 12, 20⟩ ⟨2025, 6, 15⟩).active_loans.length ≤ 3 ∧
      (∀ l ∈ (financialSnapshot (some ⟨10000, 0⟩)
        [⟨100000, 5000, 5, ⟨2025, 8, 1⟩, ⟨2026, 8, 1⟩⟩,
         ⟨100000, 5000, 5, ⟨2025, 8, 1⟩, ⟨2026, 8, 1⟩⟩,
         ⟨100000, 5000, 5, ⟨2025, 8, 1⟩, ⟨2026, 8, 1⟩⟩,
         ⟨100000, 5000, 5, ⟨2025, 8, 1⟩, ⟨2026, 8, 1⟩⟩]
        none [] ⟨30, 50, 12, 20⟩ ⟨2025, 6, 15⟩).loans, l.interest_rate ≤ 18) ∧
      max (financialSnapshot (some ⟨10000, 0⟩)
        [⟨100000, 5000, 5, ⟨2025, 8, 1⟩, ⟨2026, 8, 1⟩⟩,
         ⟨100000, 5000, 5, ⟨2025, 8, 1⟩, ⟨2026, 8, 1⟩⟩,
         ⟨100000, 5000, 5, ⟨2025, 8, 1⟩, ⟨2026, 8, 1⟩⟩,
         ⟨100000, 5000, 5, ⟨2025, 8, 1⟩, ⟨2026, 8, 1⟩⟩]
        none [] ⟨30, 50, 12, 20⟩ ⟨2025, 6, 15⟩).emi_ratio
        (financialSnapshot (some ⟨10000, 0⟩)
        [⟨100000, 5000, 5, ⟨2025, 8, 1⟩, ⟨2026, 8, 1⟩⟩,
         ⟨100000, 5000, 5, ⟨2025, 8, 1⟩, ⟨2026, 8, 1⟩⟩,
         ⟨100000, 5000, 5, ⟨2025, 8, 1⟩, ⟨2026, 8, 1⟩⟩,
         ⟨100000, 5000, 5, ⟨2025, 8, 1⟩, ⟨2026, 8, 1⟩⟩]
        none [] ⟨30, 50, 12, 20⟩ ⟨2025, 6, 15⟩).overall_burden_ratio ≤ 60) ∧
    (riskProfile (financialSnapshot none [] (some ⟨5000, 0, 0, 0⟩) []
        ⟨30, 50, 12, 20⟩ ⟨2025, 6, 15⟩) = RiskLevel.low ∧
      ((financialSnapshot none [] (some ⟨5000, 0, 0, 0⟩) []
        ⟨30, 50, 12, 20⟩ ⟨2025, 6, 15⟩).total_income : ℚ) * (3/4)
        < ((financialSnapshot none [] (some ⟨5000, 0, 0, 0⟩) []
        ⟨30, 50, 12, 20⟩ ⟨2025, 6, 15⟩).total_budget_expense : ℚ) ∧
      (financialSnapshot none [] (some ⟨5000, 0, 0, 0⟩) []
        ⟨30, 50, 12, 20⟩ ⟨2025, 6, 15⟩).loans = [] ∧
      max (financialSnapshot none [] (some ⟨5000, 0, 0, 0⟩) []
        ⟨30, 50, 12, 20⟩ ⟨2025, 6, 15⟩).emi_ratio
        (financialSnapshot none [] (some ⟨5000, 0, 0, 0⟩) []
        ⟨30, 50, 12, 20⟩ ⟨2025, 6, 15⟩).overall_burden_ratio < 40) := by
  constructor
  · refine ⟨?_, ?_, ?_, ?_⟩
    · norm_num [financialSnapshot, creditCardSnapshot_nil, loanStatus, PyDate.lt_def,
        round2_zero, upcoming_ne_active, closed_ne_active, riskProfile, riskLoans]
    · norm_num [financialSnapshot, loanStatus, PyDate.lt_def,
        upcoming_ne_active, closed_ne_active]
    · norm_num [financialSnapshot]
    · norm_num [financialSnapshot, creditCardSnapshot_nil, loanStatus, PyDate.lt_def,
        round2_zero, upcoming_ne_active, closed_ne_active]
  · refine ⟨?_, ?_, ?_, ?_⟩
    · norm_num [financialSnapshot, creditCardSnapshot_nil, loanStatus, PyDate.lt_def,
        round2_zero, upcoming_ne_active, closed_ne_active, riskProfile, riskLoans]
    · norm_num [financialSnapshot]
    · norm_num [financialSnapshot]
    · norm_num [financialSnapshot, creditCardSnapshot_nil, round2_zero]

/-- C9 (amended): `_risk_profile` classifies high risk iff the debt-load
ratio exceeds 60, or the inspected loan list (the active loans, falling
back to all loans when none is active) has more than 3 loans, or some
loan in that list has rate above 18; otherwise medium risk iff the
debt-load ratio is in [40, 60] or the income is positive and the budget
total exceeds 75% of it; otherwise low risk. -/
theorem riskProfile_spec (s : FinSnapshot) :
    (riskProfile s = RiskLevel.high ↔
      60 < max s.emi_ratio s.overall_burden_ratio ∨
      3 < (riskLoans s).length ∨
      ∃ l ∈ riskLoans s, (18:ℚ) < l.interest_rate) ∧
    (riskProfile s ≠ RiskLevel.high →
      (riskProfile s = RiskLevel.medium ↔
        (40 ≤ max s.emi_ratio s.overall_burden_ratio ∧
          max s.emi_ratio s.overall_burden_ratio ≤ 60) ∨
        (0 < s.total_income ∧
          (s.total_income : ℚ) * (3/4) < (s.total_budget_expense : ℚ)))) ∧
    (riskProfile s ≠ RiskLevel.high → riskProfile s ≠ RiskLevel.medium →
      riskProfile s = RiskLevel.low) := by
  simp only [riskProfile]
  split_ifs with h1 h2
  · exact ⟨iff_of_true rfl h1, fun hne => absurd rfl hne, fun hne _ => absurd rfl hne⟩
  · exact ⟨iff_of_false (by decide) h1, fun _ => iff_of_true rfl h2,
      fun _ hmed => absurd rfl hmed⟩
  · exact ⟨iff_of_false (by decide) h1, fun _ => iff_of_false (by decide) h2,
      fun _ _ => rfl⟩

theorem riskProfile_spec_witness :
    riskProfile (financialSnapshot (some ⟨10000, 0⟩) [] (some ⟨9000, 0, 0, 0⟩) []
        ⟨30, 50, 12, 20⟩ ⟨2025, 6, 15⟩) ≠ RiskLevel.high ∧
    (riskProfile (financialSnapshot (some ⟨10000, 0⟩) [] (some ⟨9000, 0, 0, 0⟩) []
        ⟨30, 50, 12, 20⟩ ⟨2025, 6, 15⟩) = RiskLevel.medium ↔
      (40 ≤ max (financialSnapshot (some ⟨10000, 0⟩) [] (some ⟨9000, 0, 0, 0⟩) []
          ⟨30, 50, 12, 20⟩ ⟨2025, 6, 15⟩).emi_ratio
          (financialSnapshot (some ⟨10000, 0⟩) [] (some ⟨9000, 0, 0, 0⟩) []
          ⟨30, 50, 12, 20⟩ ⟨2025, 6, 15⟩).overall_burden_ratio ∧
        max (financialSnapshot (some ⟨10000, 0⟩) [] (some ⟨9000, 0, 0, 0⟩) []
          ⟨30, 50, 12, 20⟩ ⟨2025, 6, 15⟩).emi_ratio
          (financialSnapshot (some ⟨10000, 0⟩) [] (some ⟨9000, 0, 0, 0⟩) []
          ⟨30, 50, 12, 20⟩ ⟨2025, 6, 15⟩).overall_burden_ratio ≤ 60) ∨
      (0 < (financialSnapshot (some ⟨10000, 0⟩) [] (some ⟨9000, 0, 0, 0⟩) []
          ⟨30, 50, 12, 20⟩ ⟨2025, 6, 15⟩).total_income ∧
        ((financialSnapshot (some ⟨10000, 0⟩) [] (some ⟨9000, 0, 0, 0⟩) []
          ⟨30, 50, 12, 20⟩ ⟨2025, 6, 15⟩).total_income : ℚ) * (3/4)
          < ((financialSnapshot (some ⟨10000, 0⟩) [] (some ⟨9000, 0, 0, 0⟩) []
          ⟨30, 50, 12, 20⟩ ⟨2025, 6, 15⟩).total_budget_expense : ℚ))) :=
  have hrp : riskProfile (financialSnapshot (some ⟨10000, 0⟩) [] (some ⟨9000, 0, 0, 0⟩) []
      ⟨30, 50, 12, 20⟩ ⟨2025, 6, 15⟩) = RiskLevel.medium := by
    norm_num [financialSnapshot, creditCardSnapshot_nil, round2_zero,
      riskProfile, riskLoans]
  ⟨by rw [hrp]; decide, (riskProfile_spec _).2.1 (by rw [hrp]; decide)⟩

/-! ## Loan balance monotonicity (C5) -/

theorem round2_eq_div (n : ℤ) : round2 ((n : ℚ) / 100) = (n : ℚ) / 100 := by
  unfold round2
  have h : ((n : ℚ) / 100) * 100 = (n : ℚ) := by field_simp
  rw [h, roundHalfEven_intCast]

theorem PyDate.le_trans {a b c : PyDate} (hab : a ≤ b) (hbc : b ≤ c) : a ≤ c := by
  simp only [PyDate.le_def, PyDate.lt, PyDate.ext_iff] at *
  omega

theorem monthGap_mono {s m1 m2 : PyDate} (h12 : m1 ≤ m2)
    (hm1 : 1 ≤ m1.month) (hm1b : m1.month ≤ 12)
    (hm2 : 1 ≤ m2.month) (hm2b : m2.month ≤ 12) :
    monthGap s m1 ≤ monthGap s m2 := by
  simp only [PyDate.le_def, PyDate.lt, PyDate.ext_iff] at h12
  unfold monthGap
  omega

theorem loanBalanceStep_le {rate emi b P : ℚ} (hemi : 0 ≤ emi)
    (hb : b ≤ P) (hcov : P * rate ≤ emi) : loanBalanceStep rate emi b ≤ b := by
  unfold loanBalanceStep
  split_ifs with h
  · have hbr : b * rate ≤ P * rate := mul_le_mul_of_nonneg_right hb (le_of_lt h)
    linarith
  · linarith

theorem loanBalanceIter_le {rate emi P : ℚ} (hemi : 0 ≤ emi) (hcov : P * rate ≤ emi) :
    ∀ k b, 0 ≤ b → b ≤ P → loanBalanceIter rate emi k b ≤ b := by
  intro k
  induction k with
  | zero => intro b _ _; exact le_refl _
  | succ k ih =>
      intro b hb0 hbP
      simp only [loanBalanceIter]
      split_ifs with h
      · exact hb0
      · have hstep : loanBalanceStep rate emi b ≤ b := loanBalanceStep_le hemi hbP hcov
        exact le_trans (ih _ (le_of_lt (lt_of_not_le h)) (hstep.trans hbP)) hstep

theorem loanBalanceIter_succ (rate emi : ℚ) (k : ℕ) (b : ℚ) :
    loanBalanceIter rate emi (k + 1) b =
      if loanBalanceStep rate emi b ≤ 0 then 0
      else loanBalanceIter rate emi k (loanBalanceStep rate emi b) := rfl

theorem loanBalanceIter_succ_le {rate emi P : ℚ} (hemi : 0 ≤ emi) (hcov : P * rate ≤ emi) :
    ∀ k b, 0 ≤ b → b ≤ P →
      loanBalanceIter rate emi (k + 1) b ≤ loanBalanceIter rate emi k b := by
  intro k
  induction k with
  | zero =>
      intro b hb0 hbP
      rw [loanBalanceIter_succ]
      split_ifs with h
      · exact hb0
      · exact loanBalanceStep_le hemi hbP hcov
  | succ k ih =>
      intro b hb0 hbP
      have hstep : loanBalanceStep rate emi b ≤ b := loanBalanceStep_le hemi hbP hcov
      rw [loanBalanceIter_succ rate emi (k + 1) b, loanBalanceIter_succ rate emi k b]
      split_ifs with h
      · exact le_refl _
      · exact ih _ (le_of_lt (lt_of_not_le h)) (hstep.trans hbP)

theorem loanBalanceIter_anti {rate emi P : ℚ} (hemi : 0 ≤ emi) (hcov : P * rate ≤ emi)
    {k1 k2 : ℕ} (hk : k1 ≤ k2) (hP : 0 ≤ P) :
    loanBalanceIter rate emi k2 P ≤ loanBalanceIter rate emi k1 P := by
  induction k2, hk using Nat.le_induction with
  | base => exact le_refl _
  | succ k2 hk ih =>
      exact le_trans (loanBalanceIter_succ_le hemi hcov k2 P hP (le_refl P)) ih

theorem loanRemainingBalanceAtMonth_nonneg (loan : Loan) (m : PyDate) :
    0 ≤ loanRemainingBalanceAtMonth loan m := by
  unfold loanRemainingBalanceAtMonth
  split_ifs <;> first | exact le_refl 0 | exact round2_nonneg (le_max_left 0 _)

/-- C5 (counterexample): for the under-amortizing loan with principal
1000000, monthly EMI 1 and 12% annual rate running 2025-01-01 to
2025-03-01, the reported remaining balance strictly increases from the
start month to the next month, and at the end month itself (2025-03-01,
which is `end_month`) it is 1020097.99, not 0. -/
theorem loanRemainingBalance_cx :
    loanRemainingBalanceAtMonth
        ⟨1000000, 1, 12, ⟨2025, 1, 1⟩, ⟨2025, 3, 1⟩⟩ ⟨2025, 1, 1⟩ = 1000000 ∧
    loanRemainingBalanceAtMonth
        ⟨1000000, 1, 12, ⟨2025, 1, 1⟩, ⟨2025, 3, 1⟩⟩ ⟨2025, 2, 1⟩ = 1009999 ∧
    monthStartValue (⟨2025, 3, 1⟩ : PyDate) = ⟨2025, 3, 1⟩ ∧
    loanRemainingBalanceAtMonth
        ⟨1000000, 1, 12, ⟨2025, 1, 1⟩, ⟨2025, 3, 1⟩⟩ ⟨2025, 3, 1⟩
      = 102009799 / 100 := by
  have h1 : round2 (1000000 : ℚ) = 1000000 := by
    have := round2_intCast 1000000
    norm_num at this
    exact this
  have h2 : round2 (1009999 : ℚ) = 1009999 := by
    have := round2_intCast 1009999
    norm_num at this
    exact this
  have h3 : round2 ((102009799 : ℚ) / 100) = 102009799 / 100 := by
    have := round2_eq_div 102009799
    norm_num at this
    exact this
  refine ⟨?_, ?_, rfl, ?_⟩ <;>
    norm_num [loanRemainingBalanceAtMonth, loanBalanceIter, loanBalanceStep,
      loanPeriodMonths, monthGap, monthStartValue, PyDate.lt_def, h1, h2, h3]

/-- C5 (amended): for a loan with positive principal and EMI,
non-negative rate, a valid date span, and a monthly EMI that covers one
month of interest on the principal (`monthly_emi ≥
principal × interest_rate/1200`), the remaining balance is monotonically
non-increasing over the first-of-month grid within
`[start_month, end_month]`; and for every month strictly after
`end_month` the balance is exactly 0 (at `end_month` itself it may still
be positive, as the counterexample shows). -/
theorem loanRemainingBalance_monotone (loan : Loan)
    (hP : 0 < loan.principal) (hE : 0 < loan.monthly_emi)
    (hR : 0 ≤ loan.interest_rate) (_hSE : loan.start_date ≤ loan.end_date)
    (hcov : (loan.principal : ℚ) * (loan.interest_rate / 1200)
      ≤ (loan.monthly_emi : ℚ)) :
    (∀ m1 m2 : PyDate,
      m1.day = 1 → m2.day = 1 →
      1 ≤ m1.month → m1.month ≤ 12 → 1 ≤ m2.month → m2.month ≤ 12 →
      monthStartValue loan.start_date ≤ m1 → m1 ≤ m2 →
      m2 ≤ monthStartValue loan.end_date →
      loanRemainingBalanceAtMonth loan m2 ≤ loanRemainingBalanceAtMonth loan m1) ∧
    (∀ m : PyDate, monthStartValue loan.end_date < m →
      loanRemainingBalanceAtMonth loan m = 0) := by
  have hPmax : max 0 loan.principal = loan.principal := max_eq_right (le_of_lt hP)
  have hEmax : max 0 loan.monthly_emi = loan.monthly_emi := max_eq_right (le_of_lt hE)
  have hRmax : max 0 loan.interest_rate = loan.interest_rate := max_eq_right hR
  have hguard : ¬ ((max 0 loan.principal : ℤ) : ℚ) ≤ 0 := by
    rw [hPmax]
    exact not_le.mpr (by exact_mod_cast hP)
  have hwindow : ∀ m : PyDate, monthStartValue loan.start_date ≤ m →
      m ≤ monthStartValue loan.end_date →
      loanRemainingBalanceAtMonth loan m =
        if loanPeriodMonths loan.start_date loan.end_date
            ≤ max 0 (monthGap (monthStartValue loan.start_date) m) then 0
        else round2 (max 0 (loanBalanceIter (max 0 loan.interest_rate / 1200)
          ((max 0 loan.monthly_emi : ℤ) : ℚ)
          (max 0 (monthGap (monthStartValue loan.start_date) m)).toNat
          ((max 0 loan.principal : ℤ) : ℚ))) := by
    intro m hm1 hm2
    unfold loanRemainingBalanceAtMonth
    rw [if_neg hguard, if_neg (PyDate.not_lt.mpr hm1), if_neg (PyDate.not_lt.mpr hm2)]
  constructor
  · intro m1 m2 _hd1 _hd2 hm1a hm1b hm2a hm2b hs1 h12 h2e
    have hs2 : monthStartValue loan.start_date ≤ m2 := PyDate.le_trans hs1 h12
    have h1e : m1 ≤ monthStartValue loan.end_date := PyDate.le_trans h12 h2e
    have hgap : monthGap (monthStartValue loan.start_date) m1
        ≤ monthGap (monthStartValue loan.start_date) m2 :=
      monthGap_mono h12 hm1a hm1b hm2a hm2b
    rw [hwindow m1 hs1 h1e, hwindow m2 hs2 h2e]
    by_cases ht2 : loanPeriodMonths loan.start_date loan.end_date
        ≤ max 0 (monthGap (monthStartValue loan.start_date) m2)
    · rw [if_pos ht2]
      split_ifs with ht1
      · exact le_refl 0
      · exact round2_nonneg (le_max_left 0 _)
    · have ht1 : ¬ loanPeriodMonths loan.start_date loan.end_date
          ≤ max 0 (monthGap (monthStartValue loan.start_date) m1) := by
        intro hcon
        exact ht2 (le_trans hcon (max_le_max (le_refl 0) hgap))
      rw [if_neg ht2, if_neg ht1]
      apply round2_mono
      apply max_le_max (le_refl 0)
      apply loanBalanceIter_anti
      · rw [hEmax]
        exact_mod_cast le_of_lt hE
      · rw [hPmax, hEmax, hRmax]
        exact hcov
      · exact Int.toNat_le_toNat (max_le_max (le_refl 0) hgap)
      · rw [hPmax]
        exact_mod_cast le_of_lt hP
  · intro m hm
    unfold loanRemainingBalanceAtMonth
    split_ifs <;> rfl

theorem loanRemainingBalance_monotone_witness :
    loanRemainingBalanceAtMonth
        ⟨120000, 12000, 12, ⟨2025, 1, 1⟩, ⟨2025, 12, 31⟩⟩ ⟨2025, 4, 1⟩
      ≤ loanRemainingBalanceAtMonth
        ⟨120000, 12000, 12, ⟨2025, 1, 1⟩, ⟨2025, 12, 31⟩⟩ ⟨2025, 2, 1⟩ ∧
    loanRemainingBalanceAtMonth
        ⟨120000, 12000, 12, ⟨2025, 1, 1⟩, ⟨2025, 12, 31⟩⟩ ⟨2026, 1, 1⟩ = 0 := by
  have h := loanRemainingBalance_monotone
    ⟨120000, 12000, 12, ⟨2025, 1, 1⟩, ⟨2025, 12, 31⟩⟩
    (by norm_num) (by norm_num) (by norm_num) (by decide) (by norm_num)
  exact ⟨h.1 ⟨2025, 2, 1⟩ ⟨2025, 4, 1⟩ rfl rfl (by norm_num) (by norm_num)
      (by norm_num) (by norm_num) (by decide) (by decide) (by decide),
    h.2 ⟨2026, 1, 1⟩ (by decide)⟩

/-! ## Rate inference as the inverse of the EMI formula (C7)

The amortization formula `P·r·(1+r)^n/((1+r)^n − 1)` equals
`P / annuity r n` where `annuity r n = Σ_{k=1..n} (1+r)^(−k)` — the
present value of n unit payments.  This form makes the strict
monotonicity in `r` (the heart of the bisection's correctness) and the
minimum-EMI bound transparent. -/

/-- The present value of `n` unit monthly payments at monthly rate `r`. -/
def annuity (r : ℚ) (n : ℕ) : ℚ :=
  ∑ k in Finset.range n, (1 / (1 + r)) ^ (k + 1)

theorem annuity_pos {r : ℚ} (hr : 0 ≤ r) {n : ℕ} (hn : 1 ≤ n) : 0 < annuity r n := by
  unfold annuity
  apply Finset.sum_pos
  · intro k _
    have h1 : (0:ℚ) < 1 + r := by linarith
    positivity
  · exact Finset.nonempty_range_iff.mpr (by omega)

theorem annuity_le {r : ℚ} (hr : 0 ≤ r) (n : ℕ) : annuity r n ≤ (n : ℚ) := by
  unfold annuity
  calc ∑ k in Finset.range n, (1 / (1 + r)) ^ (k + 1)
      ≤ ∑ _k in Finset.range n, (1 : ℚ) := by
        apply Finset.sum_le_sum
        intro k _
        have h1 : (0:ℚ) < 1 + r := by linarith
        apply pow_le_one₀ (by positivity)
        rw [div_le_one h1]
        linarith
    _ = (n : ℚ) := by simp

theorem annuity_zero_rate (n : ℕ) : annuity 0 n = (n : ℚ) := by
  unfold annuity
  simp

theorem annuity_strict_anti {r1 r2 : ℚ} (h0 : 0 ≤ r1) (h12 : r1 < r2)
    {n : ℕ} (hn : 1 ≤ n) : annuity r2 n < annuity r1 n := by
  unfold annuity
  apply Finset.sum_lt_sum_of_nonempty (Finset.nonempty_range_iff.mpr (by omega))
  intro k _
  have h1 : (0:ℚ) < 1 + r1 := by linarith
  have h2 : (0:ℚ) < 1 + r2 := by linarith
  have hv : 1 / (1 + r2) < 1 / (1 + r1) := by
    rw [div_lt_div_iff h2 h1]
    linarith
  exact pow_lt_pow_left hv (by positivity) (Nat.succ_ne_zero k)

theorem annuity_anti {r1 r2 : ℚ} (h0 : 0 ≤ r1) (h12 : r1 ≤ r2)
    {n : ℕ} (hn : 1 ≤ n) : annuity r2 n ≤ annuity r1 n := by
  rcases eq_or_lt_of_le h12 with h | h
  · rw [h]
  · exact le_of_lt (annuity_strict_anti h0 h hn)

theorem emiFromRate_eq_annuity {r : ℚ} (hr : 0 ≤ r) {n : ℤ} (hn : 1 ≤ n) (P : ℚ) :
    emiFromRate P r n = some (P / annuity r n.toNat) := by
  have hnn : n.toNat ≠ 0 := by omega
  have hcast : ((n.toNat : ℚ)) = (n : ℚ) := by
    exact_mod_cast congrArg (Int.cast : ℤ → ℚ) (Int.toNat_of_nonneg (by linarith))
  rcases eq_or_lt_of_le hr with h0 | hpos
  · unfold emiFromRate
    rw [if_neg (by omega), if_pos (by rw [← h0])]
    rw [← h0, annuity_zero_rate, hcast]
  · have h1r : (1:ℚ) < 1 + r := by linarith
    have h1r0 : (0:ℚ) < 1 + r := by linarith
    have hfac : (1:ℚ) < (1 + r) ^ n.toNat :=
      (one_lt_pow_iff_of_nonneg (by linarith) hnn).mpr h1r
    have hfac0 : (0:ℚ) < (1 + r) ^ n.toNat := by positivity
    have hvlt : 1 / (1 + r) < 1 := by
      rw [div_lt_one h1r0]
      linarith
    have hvne : (1 / (1 + r)) ≠ 1 := ne_of_lt hvlt
    have hrne : r ≠ 0 := ne_of_gt hpos
    have h1rne : (1 + r) ≠ 0 := ne_of_gt h1r0
    have hfne : (1 + r) ^ n.toNat ≠ 0 := ne_of_gt hfac0
    have hfm1 : (1 + r) ^ n.toNat - 1 ≠ 0 := by
      intro hcon
      have : (1 + r) ^ n.toNat = 1 := by linarith
      linarith
    have hann : annuity r n.toNat = ((1 + r) ^ n.toNat - 1) / (r * (1 + r) ^ n.toNat) := by
      unfold annuity
      have hstep : ∀ k : ℕ, (1 / (1 + r)) ^ (k + 1) = (1 / (1 + r)) ^ k * (1 / (1 + r)) :=
        fun k => pow_succ _ _
      rw [Finset.sum_congr rfl (fun k _ => hstep k), ← Finset.sum_mul, geom_sum_eq hvne]
      have hvpow : (1 / (1 + r)) ^ n.toNat = 1 / (1 + r) ^ n.toNat := by
        rw [div_pow, one_pow]
      rw [hvpow]
      field_simp
      ring
    unfold emiFromRate
    rw [if_neg (by omega), if_neg (by linarith)]
    simp only
    rw [if_neg (by linarith)]
    rw [hann, div_div_eq_mul_div]
    congr 1
    ring

theorem pairing_sum_nonneg {v : ℚ} (hv0 : 0 < v) (hv1 : v ≤ 1) (n : ℕ) :
    0 ≤ ∑ j in Finset.range n, ((n:ℚ) - 2*j) * v^j := by
  have hrefl := Finset.sum_range_reflect (fun j => ((n:ℚ) - 2*j) * v^j) n
  have h2 : 2 * (∑ j in Finset.range n, ((n:ℚ) - 2*j) * v^j)
      = ∑ j in Finset.range n, (((n:ℚ) - 2*j) * v^j
          + ((n:ℚ) - 2*((n-1-j : ℕ):ℚ)) * v^(n-1-j)) := by
    rw [Finset.sum_add_distrib, hrefl]
    ring
  suffices h : 0 ≤ 2 * ∑ j in Finset.range n, ((n:ℚ) - 2*j) * v^j by linarith
  rw [h2]
  apply Finset.sum_nonneg
  intro j hj
  have hjn : j < n := Finset.mem_range.mp hj
  have hcast : ((n-1-j : ℕ):ℚ) = (n:ℚ) - 1 - j := by
    have hle : 1 + j ≤ n := by omega
    have he : n - 1 - j = n - (1 + j) := by omega
    rw [he, Nat.cast_sub hle]
    push_cast
    ring
  rw [hcast]
  have hw2 : (0:ℚ) ≤ v ^ (n-1-j) := by positivity
  by_cases hhalf : 2*j + 1 ≤ n
  · have hw : v ^ (n-1-j) ≤ v ^ j :=
      pow_le_pow_of_le_one (le_of_lt hv0) hv1 (by omega)
    have hc1 : (1:ℚ) ≤ (n:ℚ) - 2*j := by
      have : ((2*j + 1 : ℕ):ℚ) ≤ ((n : ℕ):ℚ) := by exact_mod_cast hhalf
      push_cast at this
      linarith
    have hmul : ((n:ℚ) - 2*j) * v ^ (n-1-j) ≤ ((n:ℚ) - 2*j) * v ^ j :=
      mul_le_mul_of_nonneg_left hw (by linarith)
    nlinarith [hw2, hmul]
  · have hw : v ^ j ≤ v ^ (n-1-j) :=
      pow_le_pow_of_le_one (le_of_lt hv0) hv1 (by omega)
    have hc1 : (n:ℚ) - 2*j ≤ 0 := by
      have hnle : n ≤ 2*j := by omega
      have : ((n : ℕ):ℚ) ≤ ((2*j : ℕ):ℚ) := by exact_mod_cast hnle
      push_cast at this
      linarith
    have hmul : ((n:ℚ) - 2*j) * v ^ (n-1-j) ≤ ((n:ℚ) - 2*j) * v ^ j :=
      mul_le_mul_of_nonpos_left hw hc1
    nlinarith [hw2, hmul]

theorem geom_double_sum (v : ℚ) (n : ℕ) :
    ∑ k in Finset.range n, ∑ j in Finset.range (k+1), v^j
      = ∑ j in Finset.range n, ((n:ℚ) - j) * v^j := by
  induction n with
  | zero => simp
  | succ n ih =>
      have hL := Finset.sum_range_succ
        (fun k => ∑ j in Finset.range (k+1), v^j) n
      have hR := Finset.sum_range_succ (fun j => ((n+1:ℚ) - j) * v^j) n
      have hG := Finset.sum_range_succ (fun j => v^j) n
      have hsplit : ∑ j in Finset.range n, ((n+1:ℚ) - j) * v^j
          = (∑ j in Finset.range n, ((n:ℚ) - j) * v^j)
            + ∑ j in Finset.range n, v^j := by
        rw [← Finset.sum_add_distrib]
        apply Finset.sum_congr rfl
        intro j _
        ring
      rw [hL, ih]
      push_cast
      rw [hR, hsplit, hG]
      ring

theorem annuity_as_geom {r : ℚ} (n : ℕ) :
    annuity r n = (∑ j in Finset.range n, (1/(1+r))^j) * (1/(1+r)) := by
  unfold annuity
  rw [Finset.sum_mul]
  apply Finset.sum_congr rfl
  intro k _
  exact pow_succ _ _

theorem one_sub_annuity {r : ℚ} (hr : 0 ≤ r) (n : ℕ) :
    (n:ℚ) - annuity r n
      = r * (1/(1+r)) * ∑ j in Finset.range n, ((n:ℚ) - j) * (1/(1+r))^j := by
  have h1r0 : (0:ℚ) < 1 + r := by linarith
  have h1v : 1 - (1/(1+r)) = r * (1/(1+r)) := by
    field_simp
  have hgeom : ∀ k : ℕ, 1 - (1/(1+r))^(k+1)
      = (1 - (1/(1+r))) * ∑ j in Finset.range (k+1), (1/(1+r))^j := by
    intro k
    have h := geom_sum_mul (1/(1+r)) (k+1)
    linear_combination h
  calc (n:ℚ) - annuity r n
      = ∑ k in Finset.range n, (1 - (1/(1+r))^(k+1)) := by
        unfold annuity
        rw [Finset.sum_sub_distrib]
        simp
    _ = ∑ k in Finset.range n, (1 - (1/(1+r)))
          * ∑ j in Finset.range (k+1), (1/(1+r))^j :=
        Finset.sum_congr rfl (fun k _ => hgeom k)
    _ = (1 - (1/(1+r))) * ∑ k in Finset.range n,
          ∑ j in Finset.range (k+1), (1/(1+r))^j := by
        rw [Finset.mul_sum]
    _ = (1 - (1/(1+r))) * ∑ j in Finset.range n, ((n:ℚ) - j) * (1/(1+r))^j := by
        rw [geom_double_sum]
    _ = r * (1/(1+r)) * ∑ j in Finset.range n, ((n:ℚ) - j) * (1/(1+r))^j := by
        rw [h1v]

theorem annuity_min_gap {r : ℚ} (hr : 0 ≤ r) (n : ℕ) :
    (r * n / 2) * annuity r n ≤ (n : ℚ) - annuity r n := by
  have h1r0 : (0:ℚ) < 1 + r := by linarith
  have hv0 : (0:ℚ) < 1/(1+r) := by positivity
  have hv1 : 1/(1+r) ≤ 1 := by
    rw [div_le_one h1r0]
    linarith
  have hS := pairing_sum_nonneg hv0 hv1 n
  have hsplit : ∑ j in Finset.range n, ((n:ℚ) - j) * (1/(1+r))^j
      = (1/2) * (∑ j in Finset.range n, ((n:ℚ) - 2*j) * (1/(1+r))^j)
        + ((n:ℚ)/2) * ∑ j in Finset.range n, (1/(1+r))^j := by
    rw [Finset.mul_sum, Finset.mul_sum, ← Finset.sum_add_distrib]
    apply Finset.sum_congr rfl
    intro j _
    ring
  rw [one_sub_annuity hr n, annuity_as_geom, hsplit]
  nlinarith [mul_nonneg (mul_nonneg hr (le_of_lt hv0)) hS]

theorem emiQ_sub_min {P r : ℚ} (hP : 1 ≤ P) (hr : 0 ≤ r) {n : ℕ} (hn : 1 ≤ n) :
    P * r / 2 ≤ P / annuity r n - P / (n : ℚ) := by
  have ha := annuity_pos hr hn
  have hane : annuity r n ≠ 0 := ne_of_gt ha
  have hn0 : (0:ℚ) < (n:ℚ) := by exact_mod_cast Nat.lt_of_lt_of_le Nat.zero_lt_one hn
  have hnne : ((n:ℚ)) ≠ 0 := ne_of_gt hn0
  have hgap := annuity_min_gap hr n
  have hid : P / annuity r n - P / (n:ℚ)
      = P * ((n:ℚ) - annuity r n) / (annuity r n * n) := by
    field_simp
    ring
  rw [hid]
  have h1 : P * ((r * n / 2) * annuity r n) / (annuity r n * n)
      ≤ P * ((n:ℚ) - annuity r n) / (annuity r n * n) := by
    apply div_le_div_of_nonneg_right ?_ (by positivity)
    exact mul_le_mul_of_nonneg_left hgap (by linarith)
  have h2 : P * ((r * n / 2) * annuity r n) / (annuity r n * n) = P * r / 2 := by
    field_simp
    ring
  linarith

theorem min_le_emiQ {P r : ℚ} (hP : 0 < P) (hr : 0 ≤ r) {n : ℕ} (hn : 1 ≤ n) :
    P / (n:ℚ) ≤ P / annuity r n := by
  have ha := annuity_pos hr hn
  have hn0 : (0:ℚ) < (n:ℚ) := by exact_mod_cast Nat.lt_of_lt_of_le Nat.zero_lt_one hn
  rw [div_le_div_iff hn0 ha]
  exact mul_le_mul_of_nonneg_left (annuity_le hr n) (le_of_lt hP)

theorem emiQ_strictMono {P : ℚ} (hP : 0 < P) {n : ℕ} (hn : 1 ≤ n)
    {r1 r2 : ℚ} (h0 : 0 ≤ r1) (h12 : r1 < r2) :
    P / annuity r1 n < P / annuity r2 n := by
  have ha2 := annuity_pos (le_trans h0 (le_of_lt h12)) hn
  exact div_lt_div_of_pos_left hP ha2 (annuity_strict_anti h0 h12 hn)

theorem emiQ_mono {P : ℚ} (hP : 0 < P) {n : ℕ} (hn : 1 ≤ n)
    {r1 r2 : ℚ} (h0 : 0 ≤ r1) (h12 : r1 ≤ r2) :
    P / annuity r1 n ≤ P / annuity r2 n := by
  rcases eq_or_lt_of_le h12 with h | h
  · rw [h]
  · exact le_of_lt (emiQ_strictMono hP hn h0 h)

/-- The bisection invariant: the bracket is inside `[0,1]` and the exact
EMI curve crosses the target `m` inside it. -/
def bisectInv (P m : ℚ) (N : ℕ) (s : ℚ × ℚ) : Prop :=
  0 ≤ s.1 ∧ s.1 < s.2 ∧ s.2 ≤ 1 ∧ P / annuity s.1 N ≤ m ∧ m < P / annuity s.2 N

theorem inferStep_spec {P m : ℚ} {n : ℤ} (hn : 1 ≤ n)
    {s : ℚ × ℚ} (h : bisectInv P m n.toNat s) :
    ∃ s', inferStep P m n s = some s' ∧ bisectInv P m n.toNat s' ∧
      s'.2 - s'.1 = (s.2 - s.1) / 2 := by
  obtain ⟨h0, h12, h21, hlo, hhi⟩ := h
  have hmid0 : 0 ≤ (s.1 + s.2)/2 := by linarith
  have hmid := emiFromRate_eq_annuity hmid0 hn P
  simp only [inferStep]
  rw [hmid]
  dsimp only
  by_cases hc : m < P / annuity ((s.1 + s.2)/2) n.toNat
  · rw [if_pos hc]
    exact ⟨(s.1, (s.1+s.2)/2), rfl,
      ⟨h0, by dsimp only; linarith, by dsimp only; linarith, hlo, hc⟩,
      by dsimp only; ring⟩
  · rw [if_neg hc]
    push_neg at hc
    exact ⟨((s.1+s.2)/2, s.2), rfl,
      ⟨by dsimp only; linarith, by dsimp only; linarith, h21, hc, hhi⟩,
      by dsimp only; ring⟩

theorem inferLoop_spec {P m : ℚ} {n : ℤ} (hn : 1 ≤ n) :
    ∀ (fuel : ℕ) (s : ℚ × ℚ), bisectInv P m n.toNat s →
      ∃ s', inferLoop P m n fuel s = some s' ∧ bisectInv P m n.toNat s' ∧
        s'.2 - s'.1 = (s.2 - s.1) / 2^fuel := by
  intro fuel
  induction fuel with
  | zero =>
      intro s h
      exact ⟨s, rfl, h, by norm_num⟩
  | succ k ih =>
      intro s h
      obtain ⟨s1, hstep, hinv1, hw1⟩ := inferStep_spec hn h
      obtain ⟨s', hloop, hinv', hw'⟩ := ih s1 hinv1
      refine ⟨s', ?_, hinv', ?_⟩
      · show inferLoop P m n (k+1) s = some s'
        rw [show inferLoop P m n (k+1) s
            = (match inferStep P m n s with
               | none => none
               | some s1 => inferLoop P m n k s1) from rfl, hstep]
        exact hloop
      · rw [hw', hw1]
        ring

theorem roundHalfEven_eq_of_bounds {q : ℚ} {z : ℤ} (h1 : (z:ℚ) ≤ q)
    (h2 : q < (z:ℚ) + 1/2) : roundHalfEven q = z := by
  have hfl : ⌊q⌋ = z := Int.floor_eq_iff.mpr ⟨h1, by linarith⟩
  unfold roundHalfEven
  rw [hfl, if_pos (by linarith)]

/-- C7 (counterexample): with principal 100, monthly rate 0.001 and
tenure 12, the exact EMI is ≈ 8.39 and `_calculate_monthly_emi` rounds
it to the integer 8, which falls strictly below the zero-interest
minimum 100/12 ≈ 8.33 — so `_infer_monthly_rate` returns the sentinel
`None` rather than any value within 1e-4 of the rate. -/
theorem inferMonthlyRate_cx :
    calculateMonthlyEmi 100 (1/1000) 12 = some 8 ∧
    inferMonthlyRate 100 ((8:ℤ) : ℚ) 12 = none := by
  constructor
  · have hemi : emiFromRate 100 (1/1000) 12
        = some (100 * (1/1000) * ((1 + 1/1000 : ℚ)) ^ (12:ℕ)
            / (((1 + 1/1000 : ℚ)) ^ (12:ℕ) - 1)) := by
      unfold emiFromRate
      rw [show (12:ℤ).toNat = 12 from rfl]
      norm_num
    unfold calculateMonthlyEmi
    rw [hemi]
    have hrnd : roundHalfEven (100 * (1/1000) * ((1 + 1/1000 : ℚ)) ^ (12:ℕ)
        / (((1 + 1/1000 : ℚ)) ^ (12:ℕ) - 1)) = 8 :=
      roundHalfEven_eq_of_bounds (by norm_num) (by norm_num)
    simp only [Option.map_some']
    rw [hrnd]
    decide
  · unfold inferMonthlyRate
    norm_num

/-- C7 (amended): `_infer_monthly_rate` is the approximate inverse of
the exact EMI formula `_emi_from_rate` (before integer rounding): for
every integer principal ≥ 1, monthly rate `r ∈ [0, 1)` and tenure ≥ 1,
feeding the exact EMI back recovers a rate within 1e-4 of `r`; and
`_infer_monthly_rate` returns the `None` sentinel whenever the EMI is
strictly below the zero-interest minimum `principal/tenure`. (With the
rounded `_calculate_monthly_emi` output the recovery can fail
outright — see the counterexample — since rounding can push the EMI
below the zero-interest minimum.) -/
theorem inferMonthlyRate_inverse (p : ℤ) (hp : 1 ≤ p) (r : ℚ) (hr0 : 0 ≤ r)
    (hr1 : r < 1) (n : ℤ) (hn : 1 ≤ n) (m : ℚ)
    (hm : emiFromRate (p : ℚ) r n = some m) :
    (∃ q, inferMonthlyRate (p : ℚ) m n = some q ∧ |q - r| ≤ 1/10000) ∧
    (∀ P E : ℚ, ∀ t : ℤ, E < P / (t : ℚ) → inferMonthlyRate P E t = none) := by
  have hN1 : 1 ≤ n.toNat := by omega
  have hPq : (0:ℚ) < (p:ℚ) := by exact_mod_cast lt_of_lt_of_le zero_lt_one hp
  have hP1 : (1:ℚ) ≤ (p:ℚ) := by exact_mod_cast hp
  have hcast : ((n.toNat : ℚ)) = (n : ℚ) := by
    exact_mod_cast congrArg (Int.cast : ℤ → ℚ) (Int.toNat_of_nonneg (by linarith))
  rw [emiFromRate_eq_annuity hr0 hn] at hm
  have hmval : (p:ℚ) / annuity r n.toNat = m := Option.some_inj.mp hm
  have ha := annuity_pos hr0 hN1
  have hmpos : 0 < m := hmval ▸ div_pos hPq ha
  have hminle : (p:ℚ) / (n:ℚ) ≤ m := by
    rw [← hmval, ← hcast]
    exact min_le_emiQ hPq hr0 hN1
  constructor
  · unfold inferMonthlyRate
    rw [if_neg (by push_neg; exact ⟨by linarith, by linarith, by omega⟩)]
    simp only
    rw [if_neg (not_lt.mpr hminle)]
    by_cases habs : |m - (p:ℚ)/(n:ℚ)| < 1/100000000
    · rw [if_pos habs]
      refine ⟨0, rfl, ?_⟩
      have hgap : (p:ℚ) * r / 2 ≤ m - (p:ℚ)/(n:ℚ) := by
        rw [← hmval, ← hcast]
        exact emiQ_sub_min hP1 hr0 hN1
      have habs' : m - (p:ℚ)/(n:ℚ) < 1/100000000 := lt_of_abs_lt habs
      have hrr : r / 2 ≤ (p:ℚ) * r / 2 := by nlinarith
      rw [zero_sub, abs_neg, abs_of_nonneg hr0]
      linarith
    · rw [if_neg habs]
      have hinv0 : bisectInv (p:ℚ) m n.toNat (0, 1) := by
        refine ⟨le_refl 0, by norm_num, le_refl 1, ?_, ?_⟩
        · show (p:ℚ) / annuity 0 n.toNat ≤ m
          rw [annuity_zero_rate, hcast]
          exact hminle
        · show m < (p:ℚ) / annuity 1 n.toNat
          rw [← hmval]
          exact emiQ_strictMono hPq hN1 hr0 hr1
      obtain ⟨s', hloop, ⟨hs0, hs12, hs1le, hlo, hhi⟩, hw⟩ :=
        inferLoop_spec hn 120 (0, 1) hinv0
      rw [hloop]
      refine ⟨(s'.1 + s'.2)/2, rfl, ?_⟩
      have hr_lo : s'.1 ≤ r := by
        by_contra hcon
        push_neg at hcon
        have hlt := emiQ_strictMono hPq hN1 hr0 hcon
        rw [hmval] at hlt
        linarith
      have hr_hi : r < s'.2 := by
        by_contra hcon
        push_neg at hcon
        have hle := emiQ_mono hPq hN1 (le_trans hs0 (le_of_lt hs12)) hcon
        rw [hmval] at hle
        linarith
      have hw' : s'.2 - s'.1 = 1/2^120 := by
        rw [hw]
        norm_num
      have hsmall : (1:ℚ)/2^120 ≤ 1/10000 := by norm_num
      rw [abs_le]
      constructor
      · linarith
      · linarith
  · intro P E t hlt
    unfold inferMonthlyRate
    by_cases hg : P ≤ 0 ∨ E ≤ 0 ∨ t ≤ 0
    · rw [if_pos hg]
    · rw [if_neg hg]
      push_neg at hg
      simp only
      rw [if_pos hlt]

theorem inferMonthlyRate_inverse_witness :
    (∃ q, inferMonthlyRate ((100000 : ℤ) : ℚ)
        (100000 * (1/100) * ((1 + 1/100 : ℚ)) ^ (12:ℤ).toNat
          / (((1 + 1/100 : ℚ)) ^ (12:ℤ).toNat - 1)) 12 = some q ∧
      |q - 1/100| ≤ 1/10000) :=
  (inferMonthlyRate_inverse 100000 (by norm_num) (1/100) (by norm_num) (by norm_num)
    12 (by norm_num)
    (100000 * (1/100) * ((1 + 1/100 : ℚ)) ^ (12:ℤ).toNat
      / (((1 + 1/100 : ℚ)) ^ (12:ℤ).toNat - 1))
    (by unfold emiFromRate; rw [show (12:ℤ).toNat = 12 from rfl]; norm_num)).1

end EmiAnalyzer
